import Mathlib

/-!
Verification of the backendgo repository scripts and of the session/OTP/broadcast
coordinator its specification describes.

The JSON value model (`PyJson`) embeds the Python values the scripts pass to
`json.dumps(data, indent=2)` / `json.loads`:
  * `num m e` is the Python number printed as the decimal with `e` digits after
    the point (`e = 0` is an `int`, `e > 0` a `float` in its repr form);
  * strings print with `ensure_ascii=True` escaping (short escapes, `\uXXXX`,
    surrogate pairs for astral characters);
  * containers print in the `indent=2` pretty format of `json.dumps`.
`dumpsJ`/`loadsJ` model the two library calls, and `loadsJ_dumpsJ` below proves
the byte-level round trip the cache claims rely on.
-/

/-- A Python value serialisable by `json.dumps` in the scripts: `None`, `bool`,
`int`/`float` (as the decimal `m / 10^e` printed with `e` fractional digits),
`str`, `list`, and `dict` (keys in insertion order). -/
inductive PyJson where
  | null
  | bool (b : Bool)
  | num (m : Int) (e : Nat)
  | str (s : String)
  | arr (xs : List PyJson)
  | obj (kvs : List (String × PyJson))
deriving Inhabited, BEq, Repr

/-- Decimal digit character (`k < 10`). -/
def digitChar (k : Nat) : Char := Char.ofNat (48 + k)

/-- Lower-case hexadecimal digit character (`k < 16`). -/
def hexChar (k : Nat) : Char :=
  if k < 10 then Char.ofNat (48 + k) else Char.ofNat (87 + k)

/-- Decimal digits of `n`, most significant first. -/
def natDigits (n : Nat) : List Char :=
  if h : n < 10 then [digitChar n]
  else natDigits (n / 10) ++ [digitChar (n % 10)]
termination_by n
decreasing_by exact Nat.div_lt_self (by omega) (by omega)

/-- The characters of the Python number `m / 10^e`: sign, integer part, and for
`e > 0` a point followed by exactly `e` fractional digits (zero padded), as
`repr` prints a decimal float and `str` prints an int. -/
def numChars (m : Int) (e : Nat) : List Char :=
  let a := m.natAbs
  let intPart := natDigits (a / 10 ^ e)
  let frac :=
    if e = 0 then []
    else
      let ds := natDigits (a % 10 ^ e)
      '.' :: (List.replicate (e - ds.length) '0' ++ ds)
  (if m < 0 then ['-'] else []) ++ intPart ++ frac

/-- `\uXXXX` escape for a code unit `n ≤ 0xFFFF`. -/
def uEsc (n : Nat) : List Char :=
  ['\\', 'u', hexChar (n / 4096 % 16), hexChar (n / 256 % 16),
   hexChar (n / 16 % 16), hexChar (n % 16)]

/-- One character as `json.dumps` escapes it with `ensure_ascii=True`: short
escapes from `ESCAPE_DCT`, `\uXXXX` for other characters outside `0x20..0x7E`
(surrogate pairs above `0xFFFF`), the character itself otherwise. -/
def escChar (c : Char) : List Char :=
  if c = '"' then ['\\', '"']
  else if c = '\\' then ['\\', '\\']
  else if c = '\n' then ['\\', 'n']
  else if c = '\r' then ['\\', 'r']
  else if c = '\t' then ['\\', 't']
  else if c.toNat = 8 then ['\\', 'b']
  else if c.toNat = 12 then ['\\', 'f']
  else if c.toNat < 32 || 126 < c.toNat then
    if c.toNat < 65536 then uEsc c.toNat
    else
      let v := c.toNat - 65536
      uEsc (55296 + v / 1024) ++ uEsc (56320 + v % 1024)
  else [c]

/-- Escape every character of a string body. -/
def escAll : List Char → List Char
  | [] => []
  | c :: cs => escChar c ++ escAll cs

/-- A JSON string literal: quote, escaped body, quote. -/
def strChars (s : String) : List Char := '"' :: (escAll s.data ++ ['"'])

/-- `ind` spaces, the indentation prefix `json.dumps(…, indent=2)` writes. -/
def pad (n : Nat) : List Char := List.replicate n ' '

mutual
/-- The characters `json.dumps(value, indent=2)` produces for a value whose
containing line is indented by `ind` spaces. -/
def printJ (ind : Nat) : PyJson → List Char
  | .null => 'n' :: 'u' :: ['l', 'l']
  | .bool true => 't' :: 'r' :: ['u', 'e']
  | .bool false => 'f' :: 'a' :: ['l', 's', 'e']
  | .num m e => numChars m e
  | .str s => strChars s
  | .arr [] => ['[', ']']
  | .arr (x :: xs) =>
      '[' :: '\n' :: (pad (ind + 2) ++ printJ (ind + 2) x ++ printItems (ind + 2) xs
        ++ '\n' :: (pad ind ++ [']']))
  | .obj [] => ['{', '}']
  | .obj (kv :: kvs) =>
      '{' :: '\n' :: (pad (ind + 2) ++ printKV (ind + 2) kv ++ printMembers (ind + 2) kvs
        ++ '\n' :: (pad ind ++ ['}']))

/-- Remaining array items, each preceded by the `,\n` + indentation separator. -/
def printItems (ind : Nat) : List PyJson → List Char
  | [] => []
  | x :: xs => ',' :: '\n' :: (pad ind ++ printJ ind x ++ printItems ind xs)

/-- One `"key": value` member. -/
def printKV (ind : Nat) : String × PyJson → List Char
  | (k, v) => strChars k ++ ':' :: ' ' :: printJ ind v

/-- Remaining object members, each preceded by the `,\n` + indentation separator. -/
def printMembers (ind : Nat) : List (String × PyJson) → List Char
  | [] => []
  | kv :: kvs => ',' :: '\n' :: (pad ind ++ printKV ind kv ++ printMembers ind kvs)
end

/-- `json.dumps(d, indent=2)`. -/
def dumpsJ (d : PyJson) : String := String.mk (printJ 0 d)

/-! ### The parser modelling `json.loads` -/

/-- JSON insignificant whitespace. -/
def isWsC (c : Char) : Bool := c = ' ' || c = '\n' || c = '\t' || c = '\r'

/-- Drop leading whitespace. -/
def skipWs : List Char → List Char
  | [] => []
  | c :: cs => if isWsC c then skipWs cs else c :: cs

/-- Is `c` a decimal digit? -/
def isDig (c : Char) : Bool := 48 ≤ c.toNat && c.toNat ≤ 57

/-- Split off the maximal leading digit run. -/
def grabDigits : List Char → List Char × List Char
  | [] => ([], [])
  | c :: cs =>
      if isDig c then
        let p := grabDigits cs
        (c :: p.1, p.2)
      else ([], c :: cs)

/-- The number a digit run denotes. -/
def digitsVal (ds : List Char) : Nat :=
  ds.foldl (fun a c => a * 10 + (c.toNat - 48)) 0

/-- Value of a hexadecimal digit character. -/
def hexVal (c : Char) : Option Nat :=
  if 48 ≤ c.toNat && c.toNat ≤ 57 then some (c.toNat - 48)
  else if 97 ≤ c.toNat && c.toNat ≤ 102 then some (c.toNat - 87)
  else if 65 ≤ c.toNat && c.toNat ≤ 70 then some (c.toNat - 55)
  else none

/-- Value of four hexadecimal digits. -/
def hex4 (a b c d : Char) : Option Nat := do
  let x ← hexVal a
  let y ← hexVal b
  let z ← hexVal c
  let w ← hexVal d
  return ((x * 16 + y) * 16 + z) * 16 + w

/-- Parse a number: optional minus, digit run, optional point and digit run;
the result records the fractional-digit count so `int` and `float` forms stay
distinct, as in Python. -/
def parseNumber (cs : List Char) : Option ((Int × Nat) × List Char) :=
  let p := if cs.head? = some '-' then (true, cs.tail) else (false, cs)
  let q := grabDigits p.2
  if q.1.isEmpty then none
  else if q.2.head? = some '.' then
    let w := grabDigits q.2.tail
    if w.1.isEmpty then none
    else
      some ((if p.1 then -(digitsVal (q.1 ++ w.1) : Int) else (digitsVal (q.1 ++ w.1) : Int),
        w.1.length), w.2)
  else some ((if p.1 then -(digitsVal q.1 : Int) else (digitsVal q.1 : Int), 0), q.2)

/-- One token of a string body: its closing quote, one (possibly escaped)
character, or a malformed escape. -/
inductive StrTok where
  | done (rest : List Char)
  | ch (c : Char) (rest : List Char)
  | bad

/-- Decode the first character (or closing quote) of a string body, undoing
one escape, including a `\uXXXX\uXXXX` surrogate pair. -/
def strTok : List Char → StrTok
  | [] => .bad
  | c :: r =>
      if c = '"' then .done r
      else if c = '\\' then
        match r with
        | [] => .bad
        | e :: r1 =>
            if e = 'u' then
              match r1 with
              | a :: b :: c2 :: d :: r2 =>
                  match hex4 a b c2 d with
                  | none => .bad
                  | some n =>
                      if 55296 ≤ n ∧ n < 56320 then
                        match r2 with
                        | e2 :: u2 :: a2 :: b2 :: c3 :: d2 :: r3 =>
                            if e2 = '\\' ∧ u2 = 'u' then
                              match hex4 a2 b2 c3 d2 with
                              | none => .bad
                              | some n2 =>
                                  if 56320 ≤ n2 ∧ n2 < 57344 then
                                    .ch (Char.ofNat (65536 + (n - 55296) * 1024 + (n2 - 56320))) r3
                                  else .bad
                            else .bad
                        | _ => .bad
                      else .ch (Char.ofNat n) r2
              | _ => .bad
            else if e = '"' then .ch '"' r1
            else if e = '\\' then .ch '\\' r1
            else if e = '/' then .ch '/' r1
            else if e = 'n' then .ch '\n' r1
            else if e = 'r' then .ch '\r' r1
            else if e = 't' then .ch '\t' r1
            else if e = 'b' then .ch (Char.ofNat 8) r1
            else if e = 'f' then .ch (Char.ofNat 12) r1
            else .bad
      else .ch c r

/-- Parse a string body after the opening quote, token by token (`fuel` bounds
the number of decoded characters). -/
def readStr (fuel : Nat) (acc cs : List Char) : Option (String × List Char) :=
  match fuel with
  | 0 => none
  | fuel + 1 =>
      match strTok cs with
      | .bad => none
      | .done r => some (String.mk acc.reverse, r)
      | .ch c rest => readStr fuel (c :: acc) rest

/-- Expect a literal keyword tail, returning the remaining input. -/
def expectKw : List Char → List Char → Option (List Char)
  | [], rest => some rest
  | _ :: _, [] => none
  | k :: ks, c :: rest => if c = k then expectKw ks rest else none

mutual
/-- Parse one JSON value (recursion bounded by `fuel`). -/
def parseVal (fuel : Nat) (cs : List Char) : Option (PyJson × List Char) :=
  match fuel with
  | 0 => none
  | fuel + 1 =>
      match skipWs cs with
      | [] => none
      | c :: r =>
          if c = 'n' then
            match expectKw ['u', 'l', 'l'] r with
            | some r1 => some (.null, r1)
            | none => none
          else if c = 't' then
            match expectKw ['r', 'u', 'e'] r with
            | some r1 => some (.bool true, r1)
            | none => none
          else if c = 'f' then
            match expectKw ['a', 'l', 's', 'e'] r with
            | some r1 => some (.bool false, r1)
            | none => none
          else if c = '"' then
            match readStr fuel [] r with
            | some (s, r1) => some (.str s, r1)
            | none => none
          else if c = '[' then
            match skipWs r with
            | [] => none
            | c1 :: r1 =>
                if c1 = ']' then some (.arr [], r1)
                else
                  match parseElems fuel (c1 :: r1) with
                  | some (xs, r2) => some (.arr xs, r2)
                  | none => none
          else if c = '{' then
            match skipWs r with
            | [] => none
            | c1 :: r1 =>
                if c1 = '}' then some (.obj [], r1)
                else
                  match parseMembers fuel (c1 :: r1) with
                  | some (kvs, r2) => some (.obj kvs, r2)
                  | none => none
          else if c = '-' ∨ isDig c then
            match parseNumber (c :: r) with
            | some ((m, e), r1) => some (.num m e, r1)
            | none => none
          else none

/-- Parse one or more comma-separated array elements up to the closing bracket. -/
def parseElems (fuel : Nat) (cs : List Char) : Option (List PyJson × List Char) :=
  match fuel with
  | 0 => none
  | fuel + 1 =>
      match parseVal fuel cs with
      | none => none
      | some (x, r) =>
          match skipWs r with
          | [] => none
          | c :: r1 =>
              if c = ',' then
                match parseElems fuel r1 with
                | some (xs, r2) => some (x :: xs, r2)
                | none => none
              else if c = ']' then some ([x], r1)
              else none

/-- Parse one or more comma-separated object members up to the closing brace. -/
def parseMembers (fuel : Nat) (cs : List Char) : Option (List (String × PyJson) × List Char) :=
  match fuel with
  | 0 => none
  | fuel + 1 =>
      match skipWs cs with
      | [] => none
      | c0 :: r0 =>
          if c0 = '"' then
            match readStr fuel [] r0 with
            | none => none
            | some (k, r1) =>
                match skipWs r1 with
                | [] => none
                | c1 :: r2 =>
                    if c1 = ':' then
                      match parseVal fuel r2 with
                      | none => none
                      | some (v, r3) =>
                          match skipWs r3 with
                          | [] => none
                          | c2 :: r4 =>
                              if c2 = ',' then
                                match parseMembers fuel r4 with
                                | some (kvs, r5) => some ((k, v) :: kvs, r5)
                                | none => none
                              else if c2 = '}' then some ([(k, v)], r4)
                              else none
                    else none
          else none
end

/-- `json.loads(s)`: parse a complete document, rejecting trailing garbage. -/
def loadsJ (s : String) : Option PyJson :=
  match parseVal (s.data.length + 1) s.data with
  | some (j, r) => if skipWs r = [] then some j else none
  | none => none

/-! ### Round trip, character level -/

theorem hexVal_hexChar (k : Nat) (h : k < 16) : hexVal (hexChar k) = some k := by
  interval_cases k <;> decide

theorem hex4_spec (n : Nat) (h : n < 65536) :
    hex4 (hexChar (n / 4096 % 16)) (hexChar (n / 256 % 16))
      (hexChar (n / 16 % 16)) (hexChar (n % 16)) = some n := by
  have h16 : ∀ m : Nat, m % 16 < 16 := fun m => Nat.mod_lt _ (by omega)
  simp only [hex4, hexVal_hexChar _ (h16 _), Option.bind_eq_bind, Option.some_bind]
  have : ((n / 4096 % 16 * 16 + n / 256 % 16) * 16 + n / 16 % 16) * 16 + n % 16 = n := by
    omega
  simp [this]

theorem char_range (c : Char) : c.toNat < 55296 ∨ (57343 < c.toNat ∧ c.toNat < 1114112) := by
  rcases c with ⟨v, h⟩
  rcases h with h | ⟨h1, h2⟩
  · exact Or.inl h
  · exact Or.inr ⟨h1, h2⟩

theorem strTok_plain (r : List Char) (c : Char) (hq : c ≠ '"') (hbs : c ≠ '\\') :
    strTok (c :: r) = .ch c r := by
  rw [strTok.eq_def]
  simp only [hq, hbs, if_false, ite_false]

theorem strTok_u_far (r2 : List Char) (a b c2 d : Char) (n : Nat)
    (hh : hex4 a b c2 d = some n) (hns : ¬(55296 ≤ n ∧ n < 56320)) :
    strTok ('\\' :: 'u' :: a :: b :: c2 :: d :: r2) = .ch (Char.ofNat n) r2 := by
  have base : strTok ('\\' :: 'u' :: a :: b :: c2 :: d :: r2) =
      (match hex4 a b c2 d with
       | none => .bad
       | some n =>
           if 55296 ≤ n ∧ n < 56320 then
             (match r2 with
              | e2 :: u2 :: a2 :: b2 :: c3 :: d2 :: r3 =>
                  if e2 = '\\' ∧ u2 = 'u' then
                    match hex4 a2 b2 c3 d2 with
                    | none => .bad
                    | some n2 =>
                        if 56320 ≤ n2 ∧ n2 < 57344 then
                          .ch (Char.ofNat (65536 + (n - 55296) * 1024 + (n2 - 56320))) r3
                        else .bad
                  else .bad
              | _ => .bad)
           else .ch (Char.ofNat n) r2) := rfl
  rw [base, hh]
  exact if_neg hns

theorem strTok_u_pair (r3 : List Char) (a b c2 d a2 b2 c3 d2 : Char) (n n2 : Nat)
    (hh : hex4 a b c2 d = some n) (hs : 55296 ≤ n ∧ n < 56320)
    (hh2 : hex4 a2 b2 c3 d2 = some n2) (hs2 : 56320 ≤ n2 ∧ n2 < 57344) :
    strTok ('\\' :: 'u' :: a :: b :: c2 :: d :: '\\' :: 'u' :: a2 :: b2 :: c3 :: d2 :: r3) =
      .ch (Char.ofNat (65536 + (n - 55296) * 1024 + (n2 - 56320))) r3 := by
  have base : strTok ('\\' :: 'u' :: a :: b :: c2 :: d :: '\\' :: 'u' :: a2 :: b2 :: c3 :: d2 :: r3) =
      (match hex4 a b c2 d with
       | none => .bad
       | some n =>
           if 55296 ≤ n ∧ n < 56320 then
             (if ('\\' : Char) = '\\' ∧ ('u' : Char) = 'u' then
                match hex4 a2 b2 c3 d2 with
                | none => .bad
                | some n2 =>
                    if 56320 ≤ n2 ∧ n2 < 57344 then
                      .ch (Char.ofNat (65536 + (n - 55296) * 1024 + (n2 - 56320))) r3
                    else .bad
              else .bad)
           else .ch (Char.ofNat n) ('\\' :: 'u' :: a2 :: b2 :: c3 :: d2 :: r3)) := rfl
  rw [base, hh]
  show (if 55296 ≤ n ∧ n < 56320 then _ else _) = _
  rw [if_pos hs, if_pos ⟨rfl, rfl⟩, hh2]
  show (if 56320 ≤ n2 ∧ n2 < 57344 then _ else _) = _
  rw [if_pos hs2]

theorem strTok_escChar (c : Char) (rest : List Char) :
    strTok (escChar c ++ rest) = .ch c rest := by
  by_cases hq : c = '"'
  · subst hq; rfl
  by_cases hbs : c = '\\'
  · subst hbs; rfl
  by_cases hn : c = '\n'
  · subst hn; rfl
  by_cases hr : c = '\r'
  · subst hr; rfl
  by_cases ht : c = '\t'
  · subst ht; rfl
  by_cases hb : c.toNat = 8
  · have hc : c = Char.ofNat 8 := by rw [← hb, Char.ofNat_toNat]
    subst hc; rfl
  by_cases hf : c.toNat = 12
  · have hc : c = Char.ofNat 12 := by rw [← hf, Char.ofNat_toNat]
    subst hc; rfl
  by_cases hesc : c.toNat < 32 || 126 < c.toNat
  · rw [escChar, if_neg hq, if_neg hbs, if_neg hn, if_neg hr, if_neg ht,
      if_neg hb, if_neg hf, if_pos hesc]
    have hval := char_range c
    by_cases hbig : c.toNat < 65536
    · rw [if_pos hbig]
      show strTok ('\\' :: 'u' :: _ :: _ :: _ :: _ :: rest) = _
      rw [strTok_u_far rest _ _ _ _ c.toNat (hex4_spec c.toNat hbig) (by omega),
        Char.ofNat_toNat]
    · rw [if_neg hbig]
      have h1 : (c.toNat - 65536) / 1024 < 1024 := by omega
      have h2 : (c.toNat - 65536) % 1024 < 1024 := Nat.mod_lt _ (by omega)
      show strTok
        ('\\' :: 'u' :: _ :: _ :: _ :: _ :: '\\' :: 'u' :: _ :: _ :: _ :: _ :: rest) = _
      rw [strTok_u_pair rest _ _ _ _ _ _ _ _
        (55296 + (c.toNat - 65536) / 1024) (56320 + (c.toNat - 65536) % 1024)
        (hex4_spec _ (by omega)) (by omega) (hex4_spec _ (by omega)) (by omega)]
      have harith : 65536 + (55296 + (c.toNat - 65536) / 1024 - 55296) * 1024
          + (56320 + (c.toNat - 65536) % 1024 - 56320) = c.toNat := by
        omega
      rw [harith, Char.ofNat_toNat]
  · rw [escChar, if_neg hq, if_neg hbs, if_neg hn, if_neg hr, if_neg ht,
      if_neg hb, if_neg hf, if_neg hesc]
    rw [List.cons_append, List.nil_append]
    exact strTok_plain rest c hq hbs

theorem readStr_ch (f : Nat) (acc cs : List Char) (c : Char) (rest : List Char)
    (h : strTok cs = .ch c rest) : readStr (f + 1) acc cs = readStr f (c :: acc) rest := by
  show (match strTok cs with
        | .bad => none
        | .done r => some (String.mk acc.reverse, r)
        | .ch c rest => readStr f (c :: acc) rest) = _
  rw [h]

theorem readStr_done (f : Nat) (acc cs r : List Char) (h : strTok cs = .done r) :
    readStr (f + 1) acc cs = some (String.mk acc.reverse, r) := by
  show (match strTok cs with
        | .bad => none
        | .done r => some (String.mk acc.reverse, r)
        | .ch c rest => readStr f (c :: acc) rest) = _
  rw [h]

theorem strTok_close (r : List Char) : strTok ('"' :: r) = .done r := rfl

theorem readStr_escAll (cs : List Char) : ∀ (acc rest : List Char) (fuel : Nat),
    cs.length < fuel →
    readStr fuel acc (escAll cs ++ '"' :: rest) = some (String.mk (acc.reverse ++ cs), rest) := by
  induction cs with
  | nil =>
      intro acc rest fuel hf
      match fuel, hf with
      | f + 1, _ =>
        rw [escAll, List.nil_append,
          readStr_done f acc _ rest (strTok_close rest), List.append_nil]
  | cons c cs ih =>
      intro acc rest fuel hf
      match fuel, hf with
      | f + 1, hf2 =>
        rw [escAll, List.append_assoc,
          readStr_ch f acc _ c (escAll cs ++ '"' :: rest) (strTok_escChar c _),
          ih (c :: acc) rest f (by simp only [List.length_cons] at hf2; omega)]
        simp

theorem readStr_strChars (s : String) (rest : List Char) (fuel : Nat)
    (hf : s.data.length < fuel) :
    readStr fuel [] (escAll s.data ++ '"' :: rest) = some (s, rest) := by
  rw [readStr_escAll s.data [] rest fuel hf]
  cases s
  rfl


/-! ### Round trip, number level -/

theorem digitChar_toNat (k : Nat) (h : k < 10) : (digitChar k).toNat = 48 + k := by
  interval_cases k <;> decide

theorem isDig_digitChar (k : Nat) (h : k < 10) : isDig (digitChar k) = true := by
  interval_cases k <;> decide

theorem natDigits_ne_nil (n : Nat) : natDigits n ≠ [] := by
  rw [natDigits]
  split <;> simp

theorem natDigits_all_dig (n : Nat) : ∀ c ∈ natDigits n, isDig c = true := by
  induction n using Nat.strong_induction_on with
  | _ n ih =>
    rw [natDigits]
    split
    · intro c hc
      rw [List.mem_singleton] at hc
      subst hc
      exact isDig_digitChar n (by omega)
    · intro c hc
      rw [List.mem_append] at hc
      rcases hc with hc | hc
      · exact ih (n / 10) (Nat.div_lt_self (by omega) (by omega)) c hc
      · rw [List.mem_singleton] at hc
        subst hc
        exact isDig_digitChar _ (Nat.mod_lt _ (by omega))

theorem natDigits_head_dig (n : Nat) :
    ∃ c t, natDigits n = c :: t ∧ isDig c = true := by
  match h : natDigits n with
  | [] => exact absurd h (natDigits_ne_nil n)
  | c :: t =>
      refine ⟨c, t, rfl, natDigits_all_dig n c ?_⟩
      rw [h]
      exact List.mem_cons_self c t

/-- Folding digits starting from `x` shifts `x` by the run's length. -/
theorem foldl_digits_shift (ds : List Char) : ∀ x : Nat,
    ds.foldl (fun a c => a * 10 + (c.toNat - 48)) x
      = x * 10 ^ ds.length + digitsVal ds := by
  induction ds with
  | nil => intro x; simp [digitsVal]
  | cons c ds ih =>
      intro x
      rw [List.foldl_cons, ih (x * 10 + (c.toNat - 48))]
      have h2 : digitsVal (c :: ds) = (c.toNat - 48) * 10 ^ ds.length + digitsVal ds := by
        show List.foldl _ (0 * 10 + (c.toNat - 48)) ds = _
        rw [ih (0 * 10 + (c.toNat - 48))]
        ring
      rw [h2, List.length_cons, pow_succ]
      ring

theorem digitsVal_append (a b : List Char) :
    digitsVal (a ++ b) = digitsVal a * 10 ^ b.length + digitsVal b := by
  show List.foldl _ 0 (a ++ b) = _
  rw [List.foldl_append, foldl_digits_shift]
  rfl

theorem digitsVal_replicate_zero (k : Nat) (ds : List Char) :
    digitsVal (List.replicate k '0' ++ ds) = digitsVal ds := by
  rw [digitsVal_append]
  have hz : digitsVal (List.replicate k '0') = 0 := by
    induction k with
    | zero => rfl
    | succ k ih =>
        rw [List.replicate_succ]
        show List.foldl _ (0 * 10 + ('0'.toNat - 48)) (List.replicate k '0') = 0
        have h0 : 0 * 10 + ('0'.toNat - 48) = 0 := by decide
        rw [h0]
        exact ih
  rw [hz]
  simp

theorem digitsVal_natDigits (n : Nat) : digitsVal (natDigits n) = n := by
  induction n using Nat.strong_induction_on with
  | _ n ih =>
    rw [natDigits]
    split
    · rename_i h
      show 0 * 10 + ((digitChar n).toNat - 48) = n
      rw [digitChar_toNat n (by omega)]
      omega
    · rename_i h
      rw [digitsVal_append, ih (n / 10) (Nat.div_lt_self (by omega) (by omega))]
      have hlast : digitsVal [digitChar (n % 10)] = n % 10 := by
        show 0 * 10 + ((digitChar (n % 10)).toNat - 48) = n % 10
        rw [digitChar_toNat _ (Nat.mod_lt _ (by omega))]
        omega
      rw [hlast]
      simp only [List.length_cons, List.length_nil, pow_one, pow_zero]
      omega

theorem natDigits_length_le (e : Nat) : ∀ n : Nat, 1 ≤ e → n < 10 ^ e →
    (natDigits n).length ≤ e := by
  induction e with
  | zero => omega
  | succ e ih =>
      intro n _ hn
      rw [natDigits]
      split
      · simp only [List.length_cons, List.length_nil]
        omega
      · rename_i h
        have he : 1 ≤ e := by
          by_contra hc
          have h0 : e = 0 := by omega
          subst h0
          norm_num at hn
          omega
        have hdiv : n / 10 < 10 ^ e := by
          rw [pow_succ] at hn
          omega
        have := ih (n / 10) he hdiv
        simp only [List.length_append, List.length_cons, List.length_nil]
        omega

/-- True when `cs` cannot begin a digit. -/
def noDigHead : List Char → Bool
  | [] => true
  | c :: _ => !isDig c

/-- True when `cs` cannot extend a printed number (no digit, no point). -/
def numEnd : List Char → Bool
  | [] => true
  | c :: _ => !(isDig c || c = '.')

theorem grabDigits_stop (cs : List Char) (h : noDigHead cs = true) :
    grabDigits cs = ([], cs) := by
  match cs with
  | [] => rfl
  | c :: t =>
      simp only [noDigHead, Bool.not_eq_true'] at h
      simp [grabDigits, h]

theorem grabDigits_run (ds : List Char) (hds : ∀ c ∈ ds, isDig c = true)
    (rest : List Char) (hrest : noDigHead rest = true) :
    grabDigits (ds ++ rest) = (ds, rest) := by
  induction ds with
  | nil => simpa using grabDigits_stop rest hrest
  | cons c t ih =>
      have hc : isDig c = true := hds c (List.mem_cons_self c t)
      have ht := ih (fun x hx => hds x (List.mem_cons_of_mem c hx))
      simp [grabDigits, hc, ht]

theorem numEnd_noDigHead (cs : List Char) (h : numEnd cs = true) : noDigHead cs = true := by
  match cs with
  | [] => rfl
  | c :: t =>
      simp only [numEnd, Bool.not_eq_true', Bool.or_eq_false_iff] at h
      simp [noDigHead, h.1]

theorem numEnd_not_dot (cs : List Char) (h : numEnd cs = true) : cs.head? ≠ some '.' := by
  match cs with
  | [] => simp
  | c :: t =>
      simp only [numEnd, Bool.not_eq_true', Bool.or_eq_false_iff,
        decide_eq_false_iff_not] at h
      simp [h.2]

theorem isDig_ne_minus (c : Char) (h : isDig c = true) : c ≠ '-' := by
  intro hc
  subst hc
  simp [isDig] at h

/-- The number round trip: parsing a printed number recovers its mantissa and
fractional-digit count whenever the remainder cannot extend it. -/
theorem parseNumber_numChars (m : Int) (e : Nat) (rest : List Char)
    (hr : numEnd rest = true) :
    parseNumber (numChars m e ++ rest) = some ((m, e), rest) := by
  have hsign : ∀ v : Nat, (if (true : Bool) = true then -(v : Int) else (v : Int)) = -v := by
    intro v
    simp
  by_cases he : e = 0
  · subst he
    have hgrab : grabDigits (natDigits m.natAbs ++ rest) = (natDigits m.natAbs, rest) :=
      grabDigits_run _ (natDigits_all_dig _) rest (numEnd_noDigHead rest hr)
    by_cases hm : m < 0
    · have harg : numChars m 0 ++ rest = '-' :: (natDigits m.natAbs ++ rest) := by
        simp [numChars, hm]
      rw [harg]
      simp [parseNumber, hgrab, natDigits_ne_nil, numEnd_not_dot rest hr,
        digitsVal_natDigits]
      rw [abs_of_neg hm]
      exact neg_neg m
    · obtain ⟨c0, t0, h0, hc0⟩ := natDigits_head_dig m.natAbs
      have harg : numChars m 0 ++ rest = natDigits m.natAbs ++ rest := by
        simp [numChars, hm]
      rw [harg]
      have hnm : (natDigits m.natAbs).head? ≠ some '-' := by
        rw [h0]
        intro hc
        exact isDig_ne_minus c0 hc0 (by injection hc)
      simp [parseNumber, hnm, hgrab, natDigits_ne_nil, numEnd_not_dot rest hr,
        digitsVal_natDigits]
      omega
  · have he1 : 1 ≤ e := by omega
    set a := m.natAbs with ha
    set ids := natDigits (a / 10 ^ e) with hids
    set fds := List.replicate (e - (natDigits (a % 10 ^ e)).length) '0'
        ++ natDigits (a % 10 ^ e) with hfds
    have hfds_dig : ∀ c ∈ fds, isDig c = true := by
      intro c hc
      rw [hfds, List.mem_append] at hc
      rcases hc with hc | hc
      · rw [List.eq_of_mem_replicate hc]
        decide
      · exact natDigits_all_dig _ c hc
    have hfds_len : fds.length = e := by
      rw [hfds]
      have := natDigits_length_le e (a % 10 ^ e) he1 (Nat.mod_lt _ (by positivity))
      simp only [List.length_append, List.length_replicate]
      omega
    have hfds_val : digitsVal fds = a % 10 ^ e := by
      rw [hfds, digitsVal_replicate_zero, digitsVal_natDigits]
    have hfds_ne : fds ≠ [] := by
      intro hnil
      rw [hnil] at hfds_len
      simp only [List.length_nil] at hfds_len
      omega
    have hgrab1 : grabDigits (ids ++ '.' :: (fds ++ rest)) = (ids, '.' :: (fds ++ rest)) :=
      grabDigits_run _ (natDigits_all_dig _) _ (by simp [noDigHead, isDig])
    have hgrab2 : grabDigits (fds ++ rest) = (fds, rest) :=
      grabDigits_run _ hfds_dig rest (numEnd_noDigHead rest hr)
    have hids_ne : ids ≠ [] := by
      rw [hids]
      exact natDigits_ne_nil _
    have hval : digitsVal (ids ++ fds) = a := by
      rw [digitsVal_append, hfds_len, hfds_val, hids, digitsVal_natDigits, Nat.mul_comm]
      exact Nat.div_add_mod a (10 ^ e)
    by_cases hm : m < 0
    · have harg : numChars m e ++ rest = '-' :: (ids ++ '.' :: (fds ++ rest)) := by
        simp [numChars, hm, he, hids, hfds, ha]
      rw [harg]
      simp [parseNumber, hgrab1, hgrab2, hids_ne, hfds_ne, hval, hfds_len]
      rw [ha]
      omega
    · obtain ⟨c0, t0, h0, hc0⟩ := natDigits_head_dig (a / 10 ^ e)
      have harg : numChars m e ++ rest = ids ++ '.' :: (fds ++ rest) := by
        simp [numChars, hm, he, hids, hfds, ha]
      rw [harg]
      have hnm : ids.head? ≠ some '-' := by
        rw [hids, h0]
        intro hc
        exact isDig_ne_minus c0 hc0 (by injection hc)
      simp [parseNumber, hnm, hgrab1, hgrab2, hids_ne, hfds_ne, hval, hfds_len]
      rw [ha]
      omega

/-! ### Round trip, value level -/

theorem skipWs_cons_nonws (c : Char) (x : List Char) (h : isWsC c = false) :
    skipWs (c :: x) = c :: x := by
  simp [skipWs, h]

theorem skipWs_pad (n : Nat) (x : List Char) : skipWs (pad n ++ x) = skipWs x := by
  induction n with
  | zero => rfl
  | succ n ih =>
      rw [pad, List.replicate_succ, List.cons_append]
      show skipWs (' ' :: (pad n ++ x)) = skipWs x
      rw [show skipWs (' ' :: (pad n ++ x)) = skipWs (pad n ++ x) from by simp [skipWs, isWsC]]
      exact ih

theorem skipWs_nl (x : List Char) : skipWs ('\n' :: x) = skipWs x := by
  simp [skipWs, isWsC]

theorem skipWs_sep (n : Nat) (x : List Char) :
    skipWs ('\n' :: (pad n ++ x)) = skipWs x := by
  rw [skipWs_nl, skipWs_pad]

theorem isDig_facts (c : Char) (h : isDig c = true) :
    isWsC c = false ∧ c ≠ ']' ∧ c ≠ '}' ∧ c ≠ 'n' ∧ c ≠ 't' ∧ c ≠ 'f' ∧ c ≠ '"'
      ∧ c ≠ '[' ∧ c ≠ '{' := by
  simp only [isDig, Bool.and_eq_true, decide_eq_true_eq] at h
  constructor
  · simp only [isWsC, Bool.or_eq_false_iff, decide_eq_false_iff_not]
    refine ⟨⟨⟨?_, ?_⟩, ?_⟩, ?_⟩ <;> (intro hc; subst hc; exact absurd h (by decide))
  · refine ⟨?_, ?_, ?_, ?_, ?_, ?_, ?_, ?_⟩ <;>
      (intro hc; subst hc; exact absurd h (by decide))

theorem numChars_head (m : Int) (e : Nat) :
    ∃ c t, numChars m e = c :: t ∧ (c = '-' ∨ isDig c = true) := by
  by_cases hm : m < 0
  · refine ⟨'-', natDigits (m.natAbs / 10 ^ e) ++
      (if e = 0 then [] else '.' :: (List.replicate
        (e - (natDigits (m.natAbs % 10 ^ e)).length) '0'
        ++ natDigits (m.natAbs % 10 ^ e))), ?_, Or.inl rfl⟩
    simp [numChars, hm]
  · obtain ⟨c0, t0, h0, hc0⟩ := natDigits_head_dig (m.natAbs / 10 ^ e)
    refine ⟨c0, t0 ++
      (if e = 0 then [] else '.' :: (List.replicate
        (e - (natDigits (m.natAbs % 10 ^ e)).length) '0'
        ++ natDigits (m.natAbs % 10 ^ e))), ?_, Or.inr hc0⟩
    simp [numChars, hm, h0]

theorem printJ_head (ind : Nat) (j : PyJson) :
    ∃ c t, printJ ind j = c :: t ∧ isWsC c = false ∧ c ≠ ']' ∧ c ≠ '}' := by
  rcases j with _ | b | ⟨m, e⟩ | s | xs | kvs
  · refine ⟨'n', _, rfl, ?_⟩; decide
  · rcases b with _ | _
    · refine ⟨'f', _, rfl, ?_⟩; decide
    · refine ⟨'t', _, rfl, ?_⟩; decide
  · obtain ⟨c, t, hct, hc⟩ := numChars_head m e
    refine ⟨c, t, by rw [printJ, hct], ?_, ?_, ?_⟩
    · rcases hc with hc | hc
      · subst hc; decide
      · exact (isDig_facts c hc).1
    · rcases hc with hc | hc
      · subst hc; decide
      · exact (isDig_facts c hc).2.1
    · rcases hc with hc | hc
      · subst hc; decide
      · exact (isDig_facts c hc).2.2.1
  · refine ⟨'"', _, rfl, ?_⟩; decide
  · rcases xs with _ | ⟨x, xs⟩
    · refine ⟨'[', _, rfl, ?_⟩; decide
    · refine ⟨'[', _, rfl, ?_⟩; decide
  · rcases kvs with _ | ⟨kv, kvs⟩
    · refine ⟨'{', _, rfl, ?_⟩; decide
    · refine ⟨'{', _, rfl, ?_⟩; decide

theorem skipWs_printJ (ind : Nat) (j : PyJson) (x : List Char) :
    skipWs (printJ ind j ++ x) = printJ ind j ++ x := by
  obtain ⟨c, t, hct, hws, _, _⟩ := printJ_head ind j
  rw [hct, List.cons_append, skipWs_cons_nonws c _ hws]

theorem parseVal_ws (fuel : Nat) (a b : List Char) (h : skipWs a = skipWs b) :
    parseVal fuel a = parseVal fuel b := by
  cases fuel with
  | zero => rfl
  | succ f =>
      simp only [parseVal]
      rw [h]

theorem parseElems_ws (fuel : Nat) (a b : List Char) (h : skipWs a = skipWs b) :
    parseElems fuel a = parseElems fuel b := by
  cases fuel with
  | zero => rfl
  | succ f =>
      simp only [parseElems]
      rw [parseVal_ws f a b h]

theorem parseMembers_ws (fuel : Nat) (a b : List Char) (h : skipWs a = skipWs b) :
    parseMembers fuel a = parseMembers fuel b := by
  cases fuel with
  | zero => rfl
  | succ f =>
      simp only [parseMembers]
      rw [h]

theorem expectKw_self (ks : List Char) : ∀ rest : List Char,
    expectKw ks (ks ++ rest) = some rest := by
  induction ks with
  | nil => intro rest; rfl
  | cons k ks ih =>
      intro rest
      rw [List.cons_append]
      simp [expectKw, ih]

theorem escAll_length (cs : List Char) : cs.length ≤ (escAll cs).length := by
  induction cs with
  | nil => simp [escAll]
  | cons c cs ih =>
      rw [escAll, List.length_append, List.length_cons]
      have h1 : 1 ≤ (escChar c).length := by
        rw [escChar]
        split_ifs <;> simp [uEsc]
      omega

theorem numEnd_cons (c : Char) (t : List Char) (h1 : isDig c = false) (h2 : c ≠ '.') :
    numEnd (c :: t) = true := by
  simp [numEnd, h1, h2]

/-- One unfolding of `parseVal` when the input skips to a known head. -/
theorem parseVal_cons (f : Nat) (cs : List Char) (c : Char) (r : List Char)
    (h : skipWs cs = c :: r) :
    parseVal (f + 1) cs =
      (if c = 'n' then
        match expectKw ['u', 'l', 'l'] r with
        | some r1 => some (.null, r1)
        | none => none
      else if c = 't' then
        match expectKw ['r', 'u', 'e'] r with
        | some r1 => some (.bool true, r1)
        | none => none
      else if c = 'f' then
        match expectKw ['a', 'l', 's', 'e'] r with
        | some r1 => some (.bool false, r1)
        | none => none
      else if c = '"' then
        match readStr f [] r with
        | some (s, r1) => some (.str s, r1)
        | none => none
      else if c = '[' then
        match skipWs r with
        | [] => none
        | c1 :: r1 =>
            if c1 = ']' then some (.arr [], r1)
            else
              match parseElems f (c1 :: r1) with
              | some (xs, r2) => some (.arr xs, r2)
              | none => none
      else if c = '{' then
        match skipWs r with
        | [] => none
        | c1 :: r1 =>
            if c1 = '}' then some (.obj [], r1)
            else
              match parseMembers f (c1 :: r1) with
              | some (kvs, r2) => some (.obj kvs, r2)
              | none => none
      else if c = '-' ∨ isDig c then
        match parseNumber (c :: r) with
        | some ((m, e), r1) => some (.num m e, r1)
        | none => none
      else none) := by
  simp only [parseVal]
  rw [h]

theorem parseVal_numHead (f : Nat) (cs : List Char) (c : Char) (r : List Char)
    (h : skipWs cs = c :: r) (hc : c = '-' ∨ isDig c = true) :
    parseVal (f + 1) cs =
      (match parseNumber (c :: r) with
       | some ((m, e), r1) => some (.num m e, r1)
       | none => none) := by
  rw [parseVal_cons f cs c r h]
  have hfacts : c ≠ 'n' ∧ c ≠ 't' ∧ c ≠ 'f' ∧ c ≠ '"' ∧ c ≠ '[' ∧ c ≠ '{' := by
    rcases hc with hc | hc
    · subst hc
      refine ⟨by decide, by decide, by decide, by decide, by decide, by decide⟩
    · obtain ⟨_, _, _, h4, h5, h6, h7, h8, h9⟩ := isDig_facts c hc
      exact ⟨h4, h5, h6, h7, h8, h9⟩
  obtain ⟨h1, h2, h3, h4, h5, h6⟩ := hfacts
  rw [if_neg h1, if_neg h2, if_neg h3, if_neg h4, if_neg h5, if_neg h6, if_pos hc]

/-- One unfolding of `parseElems`. -/
theorem parseElems_step (f : Nat) (cs : List Char) :
    parseElems (f + 1) cs =
      (match parseVal f cs with
       | none => none
       | some (x, r) =>
           match skipWs r with
           | [] => none
           | c :: r1 =>
               if c = ',' then
                 match parseElems f r1 with
                 | some (xs, r2) => some (x :: xs, r2)
                 | none => none
               else if c = ']' then some ([x], r1)
               else none) := by
  simp only [parseElems]

/-- One unfolding of `parseMembers`. -/
theorem parseMembers_step (f : Nat) (cs : List Char) :
    parseMembers (f + 1) cs =
      (match skipWs cs with
       | [] => none
       | c0 :: r0 =>
           if c0 = '"' then
             match readStr f [] r0 with
             | none => none
             | some (k, r1) =>
                 match skipWs r1 with
                 | [] => none
                 | c1 :: r2 =>
                     if c1 = ':' then
                       match parseVal f r2 with
                       | none => none
                       | some (v, r3) =>
                           match skipWs r3 with
                           | [] => none
                           | c2 :: r4 =>
                               if c2 = ',' then
                                 match parseMembers f r4 with
                                 | some (kvs, r5) => some ((k, v) :: kvs, r5)
                                 | none => none
                               else if c2 = '}' then some ([(k, v)], r4)
                               else none
                     else none
           else none) := by
  simp only [parseMembers]

theorem strChars_append (s : String) (x : List Char) :
    strChars s ++ x = '"' :: (escAll s.data ++ '"' :: x) := by
  simp [strChars]

theorem skipWs_space (x : List Char) : skipWs (' ' :: x) = skipWs x := by
  simp [skipWs, isWsC]

mutual
theorem rtVal : ∀ (j : PyJson) (ind fuel : Nat) (rest : List Char),
    (printJ ind j).length < fuel → numEnd rest = true →
    parseVal fuel (printJ ind j ++ rest) = some (j, rest)
  | .null, ind, fuel, rest, hf, _ => by
      match fuel, hf with
      | f + 1, _ =>
        simp only [printJ]
        have hsk : skipWs (['n', 'u', 'l', 'l'] ++ rest) = 'n' :: ('u' :: 'l' :: 'l' :: rest) := by
          simp only [List.cons_append, List.nil_append]
          exact skipWs_cons_nonws _ _ (by decide)
        rw [parseVal_cons f _ 'n' _ hsk, if_pos rfl]
        have he := expectKw_self ['u', 'l', 'l'] rest
        simp only [List.cons_append, List.nil_append] at he
        rw [he]
  | .bool true, ind, fuel, rest, hf, _ => by
      match fuel, hf with
      | f + 1, _ =>
        simp only [printJ]
        have hsk : skipWs (['t', 'r', 'u', 'e'] ++ rest) = 't' :: ('r' :: 'u' :: 'e' :: rest) := by
          simp only [List.cons_append, List.nil_append]
          exact skipWs_cons_nonws _ _ (by decide)
        rw [parseVal_cons f _ 't' _ hsk, if_neg (by decide), if_pos rfl]
        have he := expectKw_self ['r', 'u', 'e'] rest
        simp only [List.cons_append, List.nil_append] at he
        rw [he]
  | .bool false, ind, fuel, rest, hf, _ => by
      match fuel, hf with
      | f + 1, _ =>
        simp only [printJ]
        have hsk : skipWs (['f', 'a', 'l', 's', 'e'] ++ rest)
            = 'f' :: ('a' :: 'l' :: 's' :: 'e' :: rest) := by
          simp only [List.cons_append, List.nil_append]
          exact skipWs_cons_nonws _ _ (by decide)
        rw [parseVal_cons f _ 'f' _ hsk, if_neg (by decide), if_neg (by decide), if_pos rfl]
        have he := expectKw_self ['a', 'l', 's', 'e'] rest
        simp only [List.cons_append, List.nil_append] at he
        rw [he]
  | .num m e, ind, fuel, rest, hf, hr => by
      match fuel, hf with
      | f + 1, _ =>
        simp only [printJ]
        obtain ⟨c, t, hct, hc⟩ := numChars_head m e
        have hws : isWsC c = false := by
          rcases hc with hc | hc
          · subst hc; decide
          · exact (isDig_facts c hc).1
        have hsk : skipWs (numChars m e ++ rest) = c :: (t ++ rest) := by
          rw [hct, List.cons_append]
          exact skipWs_cons_nonws _ _ hws
        have hc2 : c = '-' ∨ isDig c = true := hc
        rw [parseVal_numHead f _ c (t ++ rest) hsk hc2]
        have hback : c :: (t ++ rest) = numChars m e ++ rest := by
          rw [hct, List.cons_append]
        rw [hback, parseNumber_numChars m e rest hr]
  | .str s, ind, fuel, rest, hf, _ => by
      match fuel, hf with
      | f + 1, hf2 =>
        simp only [printJ] at hf2 ⊢
        rw [strChars_append]
        have hsk : skipWs ('"' :: (escAll s.data ++ '"' :: rest))
            = '"' :: (escAll s.data ++ '"' :: rest) := skipWs_cons_nonws _ _ (by decide)
        rw [parseVal_cons f _ '"' _ hsk,
          if_neg (by decide), if_neg (by decide), if_neg (by decide), if_pos rfl]
        have hb : s.data.length < f := by
          have := escAll_length s.data
          simp only [strChars, List.length_cons, List.length_append] at hf2
          omega
        rw [readStr_strChars s rest f hb]
  | .arr [], ind, fuel, rest, hf, _ => by
      match fuel, hf with
      | f + 1, _ =>
        simp only [printJ]
        have hsk : skipWs (['[', ']'] ++ rest) = '[' :: (']' :: rest) := by
          simp only [List.cons_append, List.nil_append]
          exact skipWs_cons_nonws _ _ (by decide)
        rw [parseVal_cons f _ '[' (']' :: rest) hsk,
          if_neg (by decide), if_neg (by decide), if_neg (by decide), if_neg (by decide),
          if_pos rfl, skipWs_cons_nonws ']' rest (by decide)]
        simp
  | .arr (x :: xs), ind, fuel, rest, hf, _ => by
      match fuel, hf with
      | f + 1, hf2 =>
        simp only [printJ] at hf2 ⊢
        obtain ⟨c1, t1, hct, hws1, hbr1, _⟩ := printJ_head (ind + 2) x
        have harg : ('[' :: '\n' :: (pad (ind + 2) ++ printJ (ind + 2) x
              ++ printItems (ind + 2) xs ++ '\n' :: (pad ind ++ [']']))) ++ rest
            = '[' :: ('\n' :: (pad (ind + 2) ++ (printJ (ind + 2) x
              ++ (printItems (ind + 2) xs ++ '\n' :: (pad ind ++ ']' :: rest))))) := by
          simp [List.append_assoc]
        rw [harg]
        have hskTop : skipWs ('[' :: ('\n' :: (pad (ind + 2) ++ (printJ (ind + 2) x
              ++ (printItems (ind + 2) xs ++ '\n' :: (pad ind ++ ']' :: rest))))))
            = '[' :: ('\n' :: (pad (ind + 2) ++ (printJ (ind + 2) x
              ++ (printItems (ind + 2) xs ++ '\n' :: (pad ind ++ ']' :: rest))))) :=
          skipWs_cons_nonws _ _ (by decide)
        rw [parseVal_cons f _ '[' _ hskTop,
          if_neg (by decide), if_neg (by decide), if_neg (by decide), if_neg (by decide),
          if_pos rfl]
        have hsk0 : skipWs ('\n' :: (pad (ind + 2) ++ (printJ (ind + 2) x
              ++ (printItems (ind + 2) xs ++ '\n' :: (pad ind ++ ']' :: rest)))))
            = c1 :: (t1 ++ (printItems (ind + 2) xs ++ '\n' :: (pad ind ++ ']' :: rest))) := by
          rw [skipWs_sep]
          rw [hct, List.cons_append]
          exact skipWs_cons_nonws _ _ hws1
        rw [hsk0]
        have hkey := rtElems x xs (ind + 2) ind f rest (by
          simp only [List.length_cons, List.length_append, pad, List.length_replicate,
            List.length_nil] at hf2
          omega)
        have hback : c1 :: (t1 ++ (printItems (ind + 2) xs ++ '\n' :: (pad ind ++ ']' :: rest)))
            = printJ (ind + 2) x ++ (printItems (ind + 2) xs
              ++ '\n' :: (pad ind ++ ']' :: rest)) := by
          rw [hct, List.cons_append]
        simp only [if_neg hbr1, hback, hkey]
  | .obj [], ind, fuel, rest, hf, _ => by
      match fuel, hf with
      | f + 1, _ =>
        simp only [printJ]
        have hsk : skipWs (['{', '}'] ++ rest) = '{' :: ('}' :: rest) := by
          simp only [List.cons_append, List.nil_append]
          exact skipWs_cons_nonws _ _ (by decide)
        rw [parseVal_cons f _ '{' ('}' :: rest) hsk,
          if_neg (by decide), if_neg (by decide), if_neg (by decide), if_neg (by decide),
          if_neg (by decide), if_pos rfl, skipWs_cons_nonws '}' rest (by decide)]
        simp
  | .obj ((k, v) :: kvs), ind, fuel, rest, hf, _ => by
      match fuel, hf with
      | f + 1, hf2 =>
        simp only [printJ] at hf2 ⊢
        have harg : ('{' :: '\n' :: (pad (ind + 2) ++ printKV (ind + 2) (k, v)
              ++ printMembers (ind + 2) kvs ++ '\n' :: (pad ind ++ ['}']))) ++ rest
            = '{' :: ('\n' :: (pad (ind + 2) ++ (printKV (ind + 2) (k, v)
              ++ (printMembers (ind + 2) kvs ++ '\n' :: (pad ind ++ '}' :: rest))))) := by
          simp [List.append_assoc]
        rw [harg]
        have hskTop : skipWs ('{' :: ('\n' :: (pad (ind + 2) ++ (printKV (ind + 2) (k, v)
              ++ (printMembers (ind + 2) kvs ++ '\n' :: (pad ind ++ '}' :: rest))))))
            = '{' :: ('\n' :: (pad (ind + 2) ++ (printKV (ind + 2) (k, v)
              ++ (printMembers (ind + 2) kvs ++ '\n' :: (pad ind ++ '}' :: rest))))) :=
          skipWs_cons_nonws _ _ (by decide)
        rw [parseVal_cons f _ '{' _ hskTop,
          if_neg (by decide), if_neg (by decide), if_neg (by decide), if_neg (by decide),
          if_neg (by decide), if_pos rfl]
        have hsk0 : skipWs ('\n' :: (pad (ind + 2) ++ (printKV (ind + 2) (k, v)
              ++ (printMembers (ind + 2) kvs ++ '\n' :: (pad ind ++ '}' :: rest)))))
            = '"' :: ((escAll k.data ++ '"' :: (':' :: ' ' :: printJ (ind + 2) v))
              ++ (printMembers (ind + 2) kvs ++ '\n' :: (pad ind ++ '}' :: rest))) := by
          rw [skipWs_sep]
          rw [show printKV (ind + 2) (k, v) = strChars k ++ ':' :: ' ' :: printJ (ind + 2) v
            from by rw [printKV]]
          rw [show (strChars k ++ ':' :: ' ' :: printJ (ind + 2) v)
              ++ (printMembers (ind + 2) kvs ++ '\n' :: (pad ind ++ '}' :: rest))
            = '"' :: ((escAll k.data ++ '"' :: (':' :: ' ' :: printJ (ind + 2) v))
              ++ (printMembers (ind + 2) kvs ++ '\n' :: (pad ind ++ '}' :: rest)))
            from by simp [strChars]]
          exact skipWs_cons_nonws _ _ (by decide)
        rw [hsk0]
        have hkey := rtMembers (k, v) kvs (ind + 2) ind f rest (by
          simp only [printKV, strChars, List.length_cons, List.length_append, pad,
            List.length_replicate, List.length_nil] at hf2 ⊢
          omega)
        have hback : '"' :: ((escAll k.data ++ '"' :: (':' :: ' ' :: printJ (ind + 2) v))
              ++ (printMembers (ind + 2) kvs ++ '\n' :: (pad ind ++ '}' :: rest)))
            = printKV (ind + 2) (k, v) ++ (printMembers (ind + 2) kvs
              ++ '\n' :: (pad ind ++ '}' :: rest)) := by
          rw [printKV]
          simp [strChars]
        simp only [if_neg (by decide : ¬('"' : Char) = '}'), hback, hkey]
  termination_by j => sizeOf j

theorem rtElems : ∀ (x : PyJson) (xs : List PyJson) (ind cInd fuel : Nat) (rest : List Char),
    (printJ ind x).length + (printItems ind xs).length + 1 < fuel →
    parseElems fuel (printJ ind x ++ (printItems ind xs ++ '\n' :: (pad cInd ++ ']' :: rest)))
      = some (x :: xs, rest)
  | x, [], ind, cInd, fuel, rest, hf => by
      match fuel, hf with
      | f + 1, hf2 =>
        rw [parseElems_step]
        simp only [printItems, List.nil_append] at hf2 ⊢
        have hx := rtVal x ind f ('\n' :: (pad cInd ++ ']' :: rest))
          (by simp only [List.length_nil] at hf2; omega)
          (numEnd_cons _ _ (by decide) (by decide))
        rw [hx]
        have hskc : skipWs ('\n' :: (pad cInd ++ ']' :: rest)) = ']' :: rest := by
          rw [skipWs_sep]
          exact skipWs_cons_nonws _ _ (by decide)
        simp only [hskc]
        simp
  | x, y :: ys, ind, cInd, fuel, rest, hf => by
      match fuel, hf with
      | f + 1, hf2 =>
        rw [parseElems_step]
        simp only [printItems, List.length_cons, List.length_append] at hf2 ⊢
        have harg : printJ ind x ++ ((',' :: '\n' :: (pad ind ++ printJ ind y
              ++ printItems ind ys)) ++ '\n' :: (pad cInd ++ ']' :: rest))
            = printJ ind x ++ (',' :: ('\n' :: (pad ind ++ (printJ ind y
              ++ (printItems ind ys ++ '\n' :: (pad cInd ++ ']' :: rest)))))) := by
          simp [List.append_assoc]
        rw [harg]
        have hx := rtVal x ind f
          (',' :: ('\n' :: (pad ind ++ (printJ ind y
            ++ (printItems ind ys ++ '\n' :: (pad cInd ++ ']' :: rest))))))
          (by omega) (numEnd_cons _ _ (by decide) (by decide))
        rw [hx]
        have hskc : skipWs (',' :: ('\n' :: (pad ind ++ (printJ ind y
              ++ (printItems ind ys ++ '\n' :: (pad cInd ++ ']' :: rest))))))
            = ',' :: ('\n' :: (pad ind ++ (printJ ind y
              ++ (printItems ind ys ++ '\n' :: (pad cInd ++ ']' :: rest)))))  :=
          skipWs_cons_nonws _ _ (by decide)
        simp only [hskc]
        have hkey := rtElems y ys ind cInd f rest (by
          simp only [pad, List.length_replicate] at hf2 ⊢
          omega)
        have hws : parseElems f ('\n' :: (pad ind ++ (printJ ind y
              ++ (printItems ind ys ++ '\n' :: (pad cInd ++ ']' :: rest)))))
            = parseElems f (printJ ind y
              ++ (printItems ind ys ++ '\n' :: (pad cInd ++ ']' :: rest))) := by
          apply parseElems_ws
          rw [skipWs_sep]
        simp only [if_pos rfl, hws, hkey]
        simp
  termination_by x xs => sizeOf x + sizeOf xs

theorem rtMembers : ∀ (kv : String × PyJson) (kvs : List (String × PyJson))
    (ind cInd fuel : Nat) (rest : List Char),
    (printKV ind kv).length + (printMembers ind kvs).length + 1 < fuel →
    parseMembers fuel (printKV ind kv
        ++ (printMembers ind kvs ++ '\n' :: (pad cInd ++ '}' :: rest)))
      = some (kv :: kvs, rest)
  | (k, v), [], ind, cInd, fuel, rest, hf => by
      match fuel, hf with
      | f + 1, hf2 =>
        rw [parseMembers_step]
        simp only [printMembers, printKV, strChars, List.nil_append, List.length_cons,
          List.length_append, List.length_nil] at hf2 ⊢
        have harg : ('"' :: (escAll k.data ++ ['"']) ++ ':' :: ' ' :: printJ ind v)
              ++ '\n' :: (pad cInd ++ '}' :: rest)
            = '"' :: (escAll k.data
              ++ '"' :: (':' :: (' ' :: (printJ ind v ++ '\n' :: (pad cInd ++ '}' :: rest))))) := by
          simp [List.append_assoc]
        rw [harg]
        have hsk1 : skipWs ('"' :: (escAll k.data
              ++ '"' :: (':' :: (' ' :: (printJ ind v ++ '\n' :: (pad cInd ++ '}' :: rest))))))
            = '"' :: (escAll k.data
              ++ '"' :: (':' :: (' ' :: (printJ ind v ++ '\n' :: (pad cInd ++ '}' :: rest))))) :=
          skipWs_cons_nonws _ _ (by decide)
        have hkb : k.data.length < f := by
          have := escAll_length k.data
          omega
        have hkr := readStr_strChars k
          (':' :: (' ' :: (printJ ind v ++ '\n' :: (pad cInd ++ '}' :: rest)))) f hkb
        have hsk2 : skipWs (':' :: (' ' :: (printJ ind v ++ '\n' :: (pad cInd ++ '}' :: rest))))
            = ':' :: (' ' :: (printJ ind v ++ '\n' :: (pad cInd ++ '}' :: rest))) :=
          skipWs_cons_nonws _ _ (by decide)
        have hvws : parseVal f (' ' :: (printJ ind v ++ '\n' :: (pad cInd ++ '}' :: rest)))
            = parseVal f (printJ ind v ++ '\n' :: (pad cInd ++ '}' :: rest)) := by
          apply parseVal_ws
          rw [skipWs_space]
        have hv := rtVal v ind f ('\n' :: (pad cInd ++ '}' :: rest))
          (by omega) (numEnd_cons _ _ (by decide) (by decide))
        have hskc : skipWs ('\n' :: (pad cInd ++ '}' :: rest)) = '}' :: rest := by
          rw [skipWs_sep]
          exact skipWs_cons_nonws _ _ (by decide)
        simp [hsk1, hkr, hsk2, hvws, hv, hskc]
  | (k, v), (k2, v2) :: kvs, ind, cInd, fuel, rest, hf => by
      match fuel, hf with
      | f + 1, hf2 =>
        rw [parseMembers_step]
        simp only [printMembers, printKV, strChars, List.length_cons,
          List.length_append, List.length_nil] at hf2 ⊢
        have harg : ('"' :: (escAll k.data ++ ['"']) ++ ':' :: ' ' :: printJ ind v)
              ++ ((',' :: '\n' :: (pad ind ++ ('"' :: (escAll k2.data ++ ['"'])
                ++ ':' :: ' ' :: printJ ind v2) ++ printMembers ind kvs))
                ++ '\n' :: (pad cInd ++ '}' :: rest))
            = '"' :: (escAll k.data
              ++ '"' :: (':' :: (' ' :: (printJ ind v
                ++ ',' :: ('\n' :: (pad ind ++ (('"' :: (escAll k2.data ++ ['"'])
                  ++ ':' :: ' ' :: printJ ind v2)
                  ++ (printMembers ind kvs
                    ++ '\n' :: (pad cInd ++ '}' :: rest))))))))) := by
          simp [List.append_assoc]
        rw [harg]
        have hsk1 : skipWs ('"' :: (escAll k.data
              ++ '"' :: (':' :: (' ' :: (printJ ind v
                ++ ',' :: ('\n' :: (pad ind ++ (('"' :: (escAll k2.data ++ ['"'])
                  ++ ':' :: ' ' :: printJ ind v2)
                  ++ (printMembers ind kvs ++ '\n' :: (pad cInd ++ '}' :: rest))))))))))
            = '"' :: (escAll k.data
              ++ '"' :: (':' :: (' ' :: (printJ ind v
                ++ ',' :: ('\n' :: (pad ind ++ (('"' :: (escAll k2.data ++ ['"'])
                  ++ ':' :: ' ' :: printJ ind v2)
                  ++ (printMembers ind kvs ++ '\n' :: (pad cInd ++ '}' :: rest))))))))) :=
          skipWs_cons_nonws _ _ (by decide)
        have hkb : k.data.length < f := by
          have := escAll_length k.data
          omega
        have hkr := readStr_strChars k
          (':' :: (' ' :: (printJ ind v
            ++ ',' :: ('\n' :: (pad ind ++ (('"' :: (escAll k2.data ++ ['"'])
              ++ ':' :: ' ' :: printJ ind v2)
              ++ (printMembers ind kvs ++ '\n' :: (pad cInd ++ '}' :: rest)))))))) f hkb
        have hsk2 : skipWs (':' :: (' ' :: (printJ ind v
              ++ ',' :: ('\n' :: (pad ind ++ (('"' :: (escAll k2.data ++ ['"'])
                ++ ':' :: ' ' :: printJ ind v2)
                ++ (printMembers ind kvs ++ '\n' :: (pad cInd ++ '}' :: rest))))))))
            = ':' :: (' ' :: (printJ ind v
              ++ ',' :: ('\n' :: (pad ind ++ (('"' :: (escAll k2.data ++ ['"'])
                ++ ':' :: ' ' :: printJ ind v2)
                ++ (printMembers ind kvs ++ '\n' :: (pad cInd ++ '}' :: rest))))))) :=
          skipWs_cons_nonws _ _ (by decide)
        have hvws : parseVal f (' ' :: (printJ ind v
              ++ ',' :: ('\n' :: (pad ind ++ (('"' :: (escAll k2.data ++ ['"'])
                ++ ':' :: ' ' :: printJ ind v2)
                ++ (printMembers ind kvs ++ '\n' :: (pad cInd ++ '}' :: rest)))))))
            = parseVal f (printJ ind v
              ++ ',' :: ('\n' :: (pad ind ++ (('"' :: (escAll k2.data ++ ['"'])
                ++ ':' :: ' ' :: printJ ind v2)
                ++ (printMembers ind kvs ++ '\n' :: (pad cInd ++ '}' :: rest)))))) := by
          apply parseVal_ws
          rw [skipWs_space]
        have hv := rtVal v ind f
          (',' :: ('\n' :: (pad ind ++ (('"' :: (escAll k2.data ++ ['"'])
            ++ ':' :: ' ' :: printJ ind v2)
            ++ (printMembers ind kvs ++ '\n' :: (pad cInd ++ '}' :: rest))))))
          (by omega) (numEnd_cons _ _ (by decide) (by decide))
        have hskc : skipWs (',' :: ('\n' :: (pad ind ++ (('"' :: (escAll k2.data ++ ['"'])
              ++ ':' :: ' ' :: printJ ind v2)
              ++ (printMembers ind kvs ++ '\n' :: (pad cInd ++ '}' :: rest))))))
            = ',' :: ('\n' :: (pad ind ++ (('"' :: (escAll k2.data ++ ['"'])
              ++ ':' :: ' ' :: printJ ind v2)
              ++ (printMembers ind kvs ++ '\n' :: (pad cInd ++ '}' :: rest))))) :=
          skipWs_cons_nonws _ _ (by decide)
        have hmws : parseMembers f ('\n' :: (pad ind ++ (('"' :: (escAll k2.data ++ ['"'])
              ++ ':' :: ' ' :: printJ ind v2)
              ++ (printMembers ind kvs ++ '\n' :: (pad cInd ++ '}' :: rest)))))
            = parseMembers f (('"' :: (escAll k2.data ++ ['"'])
              ++ ':' :: ' ' :: printJ ind v2)
              ++ (printMembers ind kvs ++ '\n' :: (pad cInd ++ '}' :: rest))) := by
          apply parseMembers_ws
          rw [skipWs_sep]
        have hkey := rtMembers (k2, v2) kvs ind cInd f rest (by
          simp only [printKV, strChars, List.length_cons, List.length_append,
            List.length_nil, pad, List.length_replicate] at hf2 ⊢
          omega)
        rw [show printKV ind (k2, v2) = '"' :: (escAll k2.data ++ ['"'])
            ++ ':' :: ' ' :: printJ ind v2 from by
          rw [printKV]
          simp [strChars]] at hkey
        simp only [List.cons_append, List.nil_append, List.append_assoc]
          at hsk1 hkr hsk2 hvws hv hskc hmws hkey ⊢
        simp [hsk1, hkr, hsk2, hvws, hv, hskc, hmws, hkey]
  termination_by kv kvs => sizeOf kv + sizeOf kvs
end

/-- The full codec round trip for `json.dumps(…, indent=2)` / `json.loads`. -/
theorem loadsJ_dumpsJ (d : PyJson) : loadsJ (dumpsJ d) = some d := by
  have h := rtVal d 0 ((printJ 0 d).length + 1) [] (by omega) rfl
  simp only [List.append_nil] at h
  simp only [loadsJ, dumpsJ]
  rw [h]
  simp [skipWs]

/-! ### The Redis cache model and `create_contest_list.py` -/

/-- The Redis string keyspace: a key holds a value together with the TTL it was
set with (`SETEX`). -/
def Cache : Type := String → Option (String × Nat)

/-- A cache with no keys. -/
def emptyCache : Cache := fun _ => none

/-- `SETEX key seconds value`. -/
def setex (key : String) (ttl : Nat) (v : String) (c : Cache) : Cache :=
  fun q => if q = key then some (v, ttl) else c q

/-- `GET key`. -/
def rget (c : Cache) (key : String) : Option String := (c key).map Prod.fst

/-- `TTL key` (for a key that exists: the TTL it was set with). -/
def rttl (c : Cache) (key : String) : Option Nat := (c key).map Prod.snd

/-- Key access on a parsed JSON object, as the scripts index the decoded dict;
`none` is the `KeyError` (no such key) or `TypeError` (not a dict) the access
raises. -/
def lookupKey (j : PyJson) (key : String) : Option PyJson :=
  match j with
  | .obj kvs => kvs.lookup key
  | _ => none

/-- Python `len(x)`: defined on sized values (list, str, dict); on an int,
float, bool or `None` it raises `TypeError`, modelled as `none`. -/
def pyLen : PyJson → Option Nat
  | .arr xs => some xs.length
  | .str s => some s.length
  | .obj kvs => some kvs.length
  | _ => none

/-- The `len(data['gamelist'])` expression both log lines of
create_contest_list.py evaluate: `none` when the key access or the `len`
raises. -/
def gamelistLen (d : PyJson) : Option Nat :=
  match lookupKey d "gamelist" with
  | some v => pyLen v
  | none => none

/-- `store_contest_list_in_redis` (create_contest_list.py): serialise `data`
with `json.dumps(data, indent=2)` and `SETEX` it under `listcontest:current`
for `expiration_minutes * 60` seconds. The success log then evaluates
`len(data['gamelist'])`: when that raises, the `except` path returns `False`
even though the cache was already written. -/
def store_contest_list_in_redis (data : PyJson) (c : Cache)
    (expiration_minutes : Nat := 5) : Bool × Cache :=
  ((gamelistLen data).isSome,
    setex "listcontest:current" (expiration_minutes * 60) (dumpsJ data) c)

/-- `retrieve_contest_list_from_redis` (create_contest_list.py): `GET
listcontest:current`; a miss (or a falsy empty string) returns `None`,
otherwise `json.loads`. The success log then evaluates
`len(contest_data['gamelist'])`: a parse error, or a payload without a sized
`gamelist` entry, lands in the `except` path and returns `None`. -/
def retrieve_contest_list_from_redis (c : Cache) : Option PyJson :=
  match rget c "listcontest:current" with
  | none => none
  | some s =>
      if s = "" then none
      else
        match loadsJ s with
        | none => none
        | some d => if (gamelistLen d).isSome then some d else none

/-- The contest list of `generate_contest_list_data`; `iso d` stands for
`(current_time + timedelta(days=d)).isoformat()`, so a time field holds
`iso d ++ "Z"`. -/
def contest_list (iso : Int → String) : List PyJson :=
  [.obj [("contestId", .num 1 0),
     ("contestName", .str "Weekly Algorithm Challenge"),
     ("description", .str "Solve complex algorithmic problems and compete with top programmers worldwide"),
     ("startTime", .str (iso 7 ++ "Z")),
     ("endTime", .str (iso 14 ++ "Z")),
     ("status", .str "upcoming"),
     ("maxParticipants", .num 1000 0),
     ("currentParticipants", .num 847 0),
     ("categories", .arr [.str "algorithms", .str "data-structures", .str "dynamic-programming"]),
     ("difficulty", .str "medium"),
     ("duration", .str "7 days"),
     ("reward", .obj [("currency", .str "USD"), ("amount", .num 5000 0),
        ("distribution", .obj [("1st", .num 2500 0), ("2nd", .num 1500 0), ("3rd", .num 1000 0)])]),
     ("rules", .arr [.str "Individual participation only",
        .str "Multiple programming languages allowed",
        .str "Plagiarism will result in disqualification"]),
     ("tags", .arr [.str "competitive", .str "weekly", .str "algorithm"]),
     ("sponsor", .str "TechCorp Inc."),
     ("registrationDeadline", .str (iso 6 ++ "Z"))],
   .obj [("contestId", .num 2 0),
     ("contestName", .str "Data Science Hackathon"),
     ("description", .str "Build innovative data science solutions using real-world datasets"),
     ("startTime", .str (iso 2 ++ "Z")),
     ("endTime", .str (iso 7 ++ "Z")),
     ("status", .str "active"),
     ("maxParticipants", .num 500 0),
     ("currentParticipants", .num 423 0),
     ("categories", .arr [.str "machine-learning", .str "data-analysis", .str "python", .str "statistics"]),
     ("difficulty", .str "hard"),
     ("duration", .str "5 days"),
     ("reward", .obj [("currency", .str "USD"), ("amount", .num 10000 0),
        ("distribution", .obj [("1st", .num 5000 0), ("2nd", .num 3000 0), ("3rd", .num 2000 0)])]),
     ("rules", .arr [.str "Team participation (2-4 members)",
        .str "Open source libraries allowed",
        .str "Final presentation required"]),
     ("tags", .arr [.str "hackathon", .str "data-science", .str "ml"]),
     ("sponsor", .str "DataTech Solutions"),
     ("registrationDeadline", .str (iso 1 ++ "Z")),
     ("liveStats", .obj [("submissions", .num 156 0), ("teams", .num 89 0),
        ("avgScore", .num 785 1)])],
   .obj [("contestId", .num 3 0),
     ("contestName", .str "Frontend Development Sprint"),
     ("description", .str "Create responsive and modern web applications using latest technologies"),
     ("startTime", .str (iso (-5) ++ "Z")),
     ("endTime", .str (iso (-2) ++ "Z")),
     ("status", .str "completed"),
     ("maxParticipants", .num 300 0),
     ("currentParticipants", .num 298 0),
     ("categories", .arr [.str "frontend", .str "react", .str "javascript", .str "css", .str "ui-ux"]),
     ("difficulty", .str "easy"),
     ("duration", .str "3 days"),
     ("reward", .obj [("currency", .str "USD"), ("amount", .num 3000 0),
        ("distribution", .obj [("1st", .num 1500 0), ("2nd", .num 900 0), ("3rd", .num 600 0)])]),
     ("rules", .arr [.str "Individual or team (max 2)",
        .str "React/Vue/Angular required",
        .str "Mobile responsive design"]),
     ("tags", .arr [.str "frontend", .str "sprint", .str "web-development"]),
     ("sponsor", .str "WebDev Pro"),
     ("registrationDeadline", .str (iso (-6) ++ "Z")),
     ("results", .obj [("winner", .str "Team CodeCrafters"), ("runnerUp", .str "SoloDev Master"),
        ("thirdPlace", .str "UI Wizards"), ("totalSubmissions", .num 245 0)])],
   .obj [("contestId", .num 4 0),
     ("contestName", .str "Mobile App Innovation"),
     ("description", .str "Develop innovative mobile applications that solve real-world problems"),
     ("startTime", .str (iso 20 ++ "Z")),
     ("endTime", .str (iso 30 ++ "Z")),
     ("status", .str "upcoming"),
     ("maxParticipants", .num 800 0),
     ("currentParticipants", .num 156 0),
     ("categories", .arr [.str "mobile-development", .str "ios", .str "android", .str "flutter", .str "react-native"]),
     ("difficulty", .str "medium"),
     ("duration", .str "10 days"),
     ("reward", .obj [("currency", .str "USD"), ("amount", .num 8000 0),
        ("distribution", .obj [("1st", .num 4000 0), ("2nd", .num 2400 0), ("3rd", .num 1600 0)])]),
     ("rules", .arr [.str "Cross-platform development preferred",
        .str "App must be functional and deployable",
        .str "Documentation and demo video required"]),
     ("tags", .arr [.str "mobile", .str "innovation", .str "app-development"]),
     ("sponsor", .str "MobileTech Ventures"),
     ("registrationDeadline", .str (iso 19 ++ "Z")),
     ("specialFeatures", .arr [.str "App Store deployment opportunity",
        .str "VC pitch session for top 3",
        .str "Industry mentorship program"])],
   .obj [("contestId", .num 5 0),
     ("contestName", .str "Blockchain Smart Contract Challenge"),
     ("description", .str "Build secure and efficient smart contracts for decentralized applications"),
     ("startTime", .str (iso 10 ++ "Z")),
     ("endTime", .str (iso 15 ++ "Z")),
     ("status", .str "upcoming"),
     ("maxParticipants", .num 400 0),
     ("currentParticipants", .num 89 0),
     ("categories", .arr [.str "blockchain", .str "smart-contracts", .str "solidity", .str "ethereum", .str "defi"]),
     ("difficulty", .str "hard"),
     ("duration", .str "5 days"),
     ("reward", .obj [("currency", .str "ETH"), ("amount", .num 50 1),
        ("distribution", .obj [("1st", .num 25 1), ("2nd", .num 15 1), ("3rd", .num 10 1)])]),
     ("rules", .arr [.str "Solidity programming required",
        .str "Security audit mandatory",
        .str "Gas optimization important"]),
     ("tags", .arr [.str "blockchain", .str "defi", .str "smart-contracts"]),
     ("sponsor", .str "CryptoChain Labs"),
     ("registrationDeadline", .str (iso 9 ++ "Z")),
     ("blockchainInfo", .obj [("network", .str "Ethereum Testnet"), ("gasLimit", .str "3000000"),
        ("compilerVersion", .str "0.8.19")])],
   .obj [("contestId", .num 6 0),
     ("contestName", .str "AI Chatbot Competition"),
     ("description", .str "Create intelligent chatbots using natural language processing and AI"),
     ("startTime", .str (iso (-1) ++ "Z")),
     ("endTime", .str (iso 2 ++ "Z")),
     ("status", .str "active"),
     ("maxParticipants", .num 600 0),
     ("currentParticipants", .num 567 0),
     ("categories", .arr [.str "artificial-intelligence", .str "nlp", .str "chatbot", .str "python", .str "api"]),
     ("difficulty", .str "medium"),
     ("duration", .str "3 days"),
     ("reward", .obj [("currency", .str "USD"), ("amount", .num 4000 0),
        ("distribution", .obj [("1st", .num 2000 0), ("2nd", .num 1200 0), ("3rd", .num 800 0)])]),
     ("rules", .arr [.str "Must use AI/ML libraries",
        .str "API integration required",
        .str "Multi-language support bonus"]),
     ("tags", .arr [.str "ai", .str "chatbot", .str "nlp"]),
     ("sponsor", .str "AI Innovations Corp"),
     ("registrationDeadline", .str (iso (-2) ++ "Z")),
     ("liveStats", .obj [("submissions", .num 234 0), ("avgAccuracy", .num 873 1),
        ("languagesSupported", .num 12 0)])]]

/-- `generate_contest_list_data` (create_contest_list.py): the stored payload is
the contest list under the single key `gamelist`. -/
def generate_contest_list_data (iso : Int → String) : PyJson :=
  .obj [("gamelist", .arr (contest_list iso))]

/-! ### `game_list_updater.py` -/

/-- One game dict of `generate_game_list`. -/
structure Game where
  game_id : String
  game_name : String
  game_type : String
  active_gamepalye : Nat
  livegameplaye : Nat
  min_players : Nat
  max_players : Nat
  status : String
  created_at : String
deriving Repr, DecidableEq

/-- A game dict as JSON, with the source's key order. -/
def Game.toJson (g : Game) : PyJson :=
  .obj [("game_id", .str g.game_id), ("game_name", .str g.game_name),
    ("game_type", .str g.game_type), ("active_gamepalye", .num g.active_gamepalye 0),
    ("livegameplaye", .num g.livegameplaye 0), ("min_players", .num g.min_players 0),
    ("max_players", .num g.max_players 0), ("status", .str g.status),
    ("created_at", .str g.created_at)]

/-- The `game_templates` list of `GameListUpdater`. -/
def game_templates : List (String × String) :=
  [("Poker", "card"), ("Rummy", "card"), ("Teen Patti", "card"), ("Carrom", "board"),
   ("Ludo", "board"), ("Snake & Ladder", "board"), ("Chess", "strategy"),
   ("Checkers", "strategy"), ("Tic Tac Toe", "puzzle"), ("Memory Game", "puzzle")]

/-- `random.randint(a, b)` (inclusive), drawing entropy from stream `r` at
index `i`. -/
def randint (r : Nat → Nat) (i a b : Nat) : Nat := a + r i % (b - a + 1)

/-- `random.sample(pool, k)`: `k` distinct draws without replacement. -/
def sampleAux (r : Nat → Nat) : Nat → Nat → List (String × String) → List (String × String)
  | 0, _, _ => []
  | k + 1, i, pool =>
      if pool.length = 0 then []
      else
        let idx := r i % pool.length
        pool.getD idx ("", "") :: sampleAux r k (i + 1) (pool.eraseIdx idx)

/-- `random.sample(pool, k)` starting at entropy index 0. -/
def sample (r : Nat → Nat) (k : Nat) (pool : List (String × String)) :
    List (String × String) :=
  sampleAux r k 0 pool

/-- `generate_game_list(num_games)`: picks `min(num_games, len(templates))`
templates and fills each game's random fields; `ts` is `int(time.time())` and
`now` the `datetime.now().isoformat()` timestamp. -/
def generate_game_list (r : Nat → Nat) (num_games : Option Nat) (ts : Nat)
    (now : String) : List Game :=
  let n := match num_games with
    | none => randint r 0 3 8
    | some k => k
  let selected := sample (fun i => r (1 + i)) (min n game_templates.length) game_templates
  selected.enum.map (fun p =>
    { game_id := "game_" ++ toString (p.1 + 1) ++ "_" ++ toString ts
      game_name := p.2.1
      game_type := p.2.2
      active_gamepalye := randint r (100 + 10 * p.1) 100 50000
      livegameplaye := randint r (101 + 10 * p.1) 50 20000
      min_players := randint r (102 + 10 * p.1) 2 4
      max_players := randint r (103 + 10 * p.1) 4 8
      status := ["active", "maintenance", "coming_soon"].getD (r (104 + 10 * p.1) % 3) "active"
      created_at := now })

/-- The `game_list_data` snapshot dict built by `update_game_list_in_redis`. -/
def gameListData (game_list : List Game) (now : String) (cache_duration : Nat) : PyJson :=
  .obj [("gamelist", .arr (game_list.map Game.toJson)),
    ("updated_at", .str now),
    ("cache_duration", .str (toString cache_duration ++ " seconds")),
    ("total_games", .num game_list.length 0),
    ("active_games", .num ((game_list.filter (fun g => g.status = "active")).length) 0),
    ("total_players", .num ((game_list.map (fun g => g.active_gamepalye)).sum) 0)]

/-- The Python `game_list` argument of `update_game_list_in_redis`: `None`, an
`int` (as `update_and_notify` passes `num_games` positionally), or a list. -/
inductive GLArg where
  | noneA
  | count (n : Nat)
  | list (gs : List Game)

/-- `update_game_list_in_redis(game_list, cache_duration)`: returns `None` when
the Redis client is unavailable; when called with an `int` (the
`update_and_notify` path), `len(game_list)` raises before the cache write, the
exception is caught, and `None` is returned with the cache unchanged;
otherwise the snapshot is built (generating a list when the argument is
`None`) and `SETEX`ed under `gamelist:current` for `cache_duration` seconds. -/
def update_game_list_in_redis (redis_client : Option Cache) (game_list : GLArg)
    (cache_duration : Nat) (r : Nat → Nat) (ts : Nat) (now : String) :
    Option (PyJson × Cache) :=
  match redis_client with
  | none => none
  | some c =>
      match game_list with
      | .count _ => none
      | .noneA =>
          let d := gameListData (generate_game_list r none ts now) now cache_duration
          some (d, setex "gamelist:current" cache_duration (dumpsJ d) c)
      | .list gs =>
          let d := gameListData gs now cache_duration
          some (d, setex "gamelist:current" cache_duration (dumpsJ d) c)

/-- The Socket.IO client: connection state and the trigger events emitted so
far, as `(event, namespace)` pairs. -/
structure SioState where
  connected : Bool
  emitted : List (String × String)

/-- `send_game_list_update_notification`: when connected (reconnection is
subsumed in the flag), emits `trigger_game_list_update` on the default and
`/gameplay` namespaces; otherwise returns `False` without emitting. -/
def send_game_list_update_notification (sio : SioState) : Bool × SioState :=
  if sio.connected then
    (true, { sio with emitted := sio.emitted
      ++ [("trigger_game_list_update", "/"), ("trigger_game_list_update", "/gameplay")] })
  else (false, sio)

/-- The `game_list` argument `update_and_notify` passes on: `num_games`
positionally, so an `int` whenever a count was given. -/
def glArgOfNum : Option Nat → GLArg
  | none => GLArg.noneA
  | some n => GLArg.count n

/-- `update_and_notify(num_games, cache_duration)`: runs the cache update and
notifies only when it succeeded; returns the success flag, the resulting
client state, and the Socket.IO state. -/
def update_and_notify (redis_client : Option Cache) (num_games : Option Nat)
    (cache_duration : Nat) (r : Nat → Nat) (ts : Nat) (now : String)
    (sio : SioState) : Bool × Option Cache × SioState :=
  match update_game_list_in_redis redis_client (glArgOfNum num_games)
      cache_duration r ts now with
  | some p => (true, some p.2, (send_game_list_update_notification sio).2)
  | none => (false, redis_client, sio)

/-- Modelled from the spec: `OnTrigger` of the Broadcast Coordinator (spec
section 4.4) for the `gamelist` topic; the Go server implementing it is not
part of this repository. On a cache hit the cached payload is used as-is; on a
miss the snapshot is rebuilt with the source's aggregation
(`update_game_list_in_redis`'s dict, TTL 300 seconds), written back, and used.
The returned string is the payload handed to `Broadcast`. -/
def onTriggerGamelist (store : List Game) (now : String) (c : Cache) :
    String × Cache :=
  match rget c "gamelist:current" with
  | some payload => (payload, c)
  | none =>
      let d := gameListData store now 300
      (dumpsJ d, setex "gamelist:current" 300 (dumpsJ d) c)

/-! ### The session manager (spec sections 3 and 4.1) -/

/-- Modelled from the spec: a row of the `sessions` table (schema in
setup_cassandra.py; the Go session manager mutating it is not part of this
repository). -/
structure SessionRow where
  mobile_no : String
  device_id : String
  session_token : String
  user_id : String
  jwt_token : Option String
  is_active : Bool
deriving DecidableEq

/-- Modelled from the spec: `StartLogin` creates a pre-verification session row
with `is_active = false` and a fresh opaque token (section 4.1). -/
def startLogin (mobile device tok uid : String) (rows : List SessionRow) :
    List SessionRow :=
  { mobile_no := mobile, device_id := device, session_token := tok,
    user_id := uid, jwt_token := none, is_active := false } :: rows

/-- Modelled from the spec: `VerifyLogin` activates the session holding the
token, issues the JWT, and deactivates any other active session of the same
`(mobile_no, device_id)` (section 4.1). -/
def verifyLogin (tok jwt : String) (rows : List SessionRow) : List SessionRow :=
  match rows.find? (fun row => row.session_token == tok) with
  | none => rows
  | some s =>
      rows.map (fun row =>
        if row.session_token == tok then
          { row with is_active := true, jwt_token := some jwt }
        else if row.mobile_no == s.mobile_no && row.device_id == s.device_id
            && row.is_active then
          { row with is_active := false }
        else row)

/-- Modelled from the spec: `Revoke` idempotently clears `is_active`
(section 4.1). -/
def revokeSession (tok : String) (rows : List SessionRow) : List SessionRow :=
  rows.map (fun row =>
    if row.session_token == tok then { row with is_active := false } else row)

/-- Session stores reachable from empty by logins with fresh tokens,
verifications, and revocations. -/
inductive SessionReach : List SessionRow → Prop
  | empty : SessionReach []
  | login (rows : List SessionRow) (m d tok u : String) :
      SessionReach rows → (∀ row ∈ rows, row.session_token ≠ tok) →
      SessionReach (startLogin m d tok u rows)
  | verify (rows : List SessionRow) (tok jwt : String) :
      SessionReach rows → SessionReach (verifyLogin tok jwt rows)
  | revoke (rows : List SessionRow) (tok : String) :
      SessionReach rows → SessionReach (revokeSession tok rows)

/-- Number of active session rows of one device. -/
def activeCount (m d : String) (rows : List SessionRow) : Nat :=
  rows.countP (fun row => row.is_active && row.mobile_no == m && row.device_id == d)

/-- Session tokens are pairwise distinct. -/
def tokensNodup (rows : List SessionRow) : Prop :=
  (rows.map SessionRow.session_token).Nodup

theorem countP_token_le_one (rows : List SessionRow) (h : tokensNodup rows)
    (tok : String) :
    rows.countP (fun row => row.session_token == tok) ≤ 1 := by
  induction rows with
  | nil => simp
  | cons a l ih =>
      rw [List.countP_cons]
      unfold tokensNodup at h
      rw [List.map_cons, List.nodup_cons] at h
      by_cases ha : a.session_token == tok
      · have hz : l.countP (fun row => row.session_token == tok) = 0 := by
          rw [List.countP_eq_zero]
          intro row hrow hc
          apply h.1
          rw [List.mem_map]
          refine ⟨row, hrow, ?_⟩
          have h1 : row.session_token = tok := by simpa using hc
          have h2 : a.session_token = tok := by simpa using ha
          rw [h1, h2]
        simp [ha, hz]
      · have := ih h.2
        simp only [ha, if_neg]
        simpa using this

theorem verifyLogin_tokens (tok jwt : String) (rows : List SessionRow) :
    (verifyLogin tok jwt rows).map SessionRow.session_token
      = rows.map SessionRow.session_token := by
  rw [verifyLogin]
  split
  · rfl
  · rw [List.map_map]
    apply List.map_congr_left
    intro row _
    simp only [Function.comp_apply]
    split_ifs <;> rfl

theorem revokeSession_tokens (tok : String) (rows : List SessionRow) :
    (revokeSession tok rows).map SessionRow.session_token
      = rows.map SessionRow.session_token := by
  rw [revokeSession, List.map_map]
  apply List.map_congr_left
  intro row _
  simp only [Function.comp_apply]
  split_ifs <;> rfl

theorem activeCount_startLogin (m d mobile device tok uid : String)
    (rows : List SessionRow) :
    activeCount m d (startLogin mobile device tok uid rows) = activeCount m d rows := by
  rw [startLogin, activeCount, List.countP_cons, activeCount]
  simp

theorem activeCount_verifyLogin (m d tok jwt : String) (rows : List SessionRow)
    (hnd : tokensNodup rows)
    (hle : activeCount m d rows ≤ 1) :
    activeCount m d (verifyLogin tok jwt rows) ≤ 1 := by
  rw [verifyLogin]
  split
  · exact hle
  · rename_i s hs
    have hstok : s.session_token = tok := by
      have := List.find?_some hs
      simpa using this
    have hsmem : s ∈ rows := List.mem_of_find?_eq_some hs
    rw [activeCount, List.countP_map]
    by_cases hdev : m = s.mobile_no ∧ d = s.device_id
    · -- the device being re-activated: only the token row stays active
      calc rows.countP _
          ≤ rows.countP (fun row => row.session_token == tok) := by
            apply List.countP_mono_left
            intro row _ hp
            simp only [Function.comp_apply] at hp
            by_cases htok : row.session_token == tok
            · exact htok
            · exfalso
              rw [if_neg (by simpa using htok)] at hp
              by_cases hsd : row.mobile_no == s.mobile_no && row.device_id == s.device_id
                  && row.is_active
              · rw [if_pos hsd] at hp
                simp at hp
              · rw [if_neg hsd] at hp
                simp only [Bool.and_eq_true, beq_iff_eq] at hp
                simp only [Bool.and_eq_true, beq_iff_eq, not_and] at hsd
                exact hsd ⟨by rw [hp.1.2]; exact hdev.1, by rw [hp.2]; exact hdev.2⟩ hp.1.1
        _ ≤ 1 := countP_token_le_one rows hnd tok
    · -- a different device: every still-active row was active before
      calc rows.countP _
          ≤ rows.countP (fun row => row.is_active && row.mobile_no == m
              && row.device_id == d) := by
            apply List.countP_mono_left
            intro row hrow hp
            simp only [Function.comp_apply] at hp
            by_cases htok : row.session_token == tok
            · exfalso
              have hrs : row = s := by
                apply List.inj_on_of_nodup_map hnd hrow hsmem
                rw [hstok]
                simpa using htok
              rw [if_pos htok] at hp
              simp only [Bool.and_eq_true, beq_iff_eq] at hp
              have h1 : s.mobile_no = m := by rw [← hrs]; exact hp.1.2
              have h2 : s.device_id = d := by rw [← hrs]; exact hp.2
              exact hdev ⟨h1.symm, h2.symm⟩
            · rw [if_neg (by simpa using htok)] at hp
              by_cases hsd : row.mobile_no == s.mobile_no && row.device_id == s.device_id
                  && row.is_active
              · rw [if_pos hsd] at hp
                simp at hp
              · rw [if_neg hsd] at hp
                exact hp
        _ ≤ 1 := hle

theorem activeCount_revokeSession (m d tok : String) (rows : List SessionRow)
    (hle : activeCount m d rows ≤ 1) :
    activeCount m d (revokeSession tok rows) ≤ 1 := by
  rw [revokeSession, activeCount, List.countP_map]
  calc rows.countP _
      ≤ rows.countP (fun row => row.is_active && row.mobile_no == m
          && row.device_id == d) := by
        apply List.countP_mono_left
        intro row _ hp
        simp only [Function.comp_apply] at hp
        split_ifs at hp with htok
        · simp at hp
        · exact hp
    _ ≤ 1 := hle

theorem sessionReach_wf (rows : List SessionRow) (h : SessionReach rows) :
    tokensNodup rows ∧ ∀ m d, activeCount m d rows ≤ 1 := by
  induction h with
  | empty => exact ⟨List.nodup_nil, fun m d => by simp [activeCount]⟩
  | login rows m d tok u _ hfresh ih =>
      constructor
      · unfold tokensNodup
        rw [startLogin, List.map_cons, List.nodup_cons]
        refine ⟨?_, ih.1⟩
        intro hc
        rw [List.mem_map] at hc
        obtain ⟨row, hrow, htok⟩ := hc
        exact hfresh row hrow htok
      · intro m2 d2
        rw [activeCount_startLogin]
        exact ih.2 m2 d2
  | verify rows tok jwt _ ih =>
      constructor
      · unfold tokensNodup
        rw [verifyLogin_tokens]
        exact ih.1
      · intro m d
        exact activeCount_verifyLogin m d tok jwt rows ih.1 (ih.2 m d)
  | revoke rows tok _ ih =>
      constructor
      · unfold tokensNodup
        rw [revokeSession_tokens]
        exact ih.1
      · intro m d
        exact activeCount_revokeSession m d tok rows (ih.2 m d)

/-! ### The OTP coordinator (spec section 4.2) -/

/-- Modelled from the spec: an OTP record (section 3; the `otp_store` schema in
DATABASESETUP.py is commented out and the Go OTP coordinator is not in this
repository). -/
structure OtpRec where
  otp_code : String
  expires_at : Nat
  is_verified : Bool
  attempt_count : Nat
deriving DecidableEq

/-- Outcome of a verify call. -/
inductive VerifyResult where
  | verified
  | expired
  | locked
  | mismatch
deriving DecidableEq

/-- Modelled from the spec: `Verify(code)` (section 4.2): `Expired` past
`expires_at`; `Locked` once `attempt_count` reached the maximum; otherwise the
attempt is consumed and the code compared, verification being idempotent. -/
def otpVerify (maxAttempts now : Nat) (code : String) (r : OtpRec) :
    VerifyResult × OtpRec :=
  if r.expires_at < now then (.expired, r)
  else if maxAttempts ≤ r.attempt_count then (.locked, r)
  else if code = r.otp_code then
    if r.is_verified then (.verified, r)
    else (.verified, { r with is_verified := true, attempt_count := r.attempt_count + 1 })
  else (.mismatch, { r with attempt_count := r.attempt_count + 1 })

/-- Modelled from the spec: `Issue` (section 4.2) creates a fresh record with
`attempt_count = 0` and `expires_at = now + ttl`. -/
def otpIssue (code : String) (now ttl : Nat) : OtpRec :=
  { otp_code := code, expires_at := now + ttl, is_verified := false, attempt_count := 0 }

/-- OTP records reachable from an issuance through verify attempts. -/
inductive OtpReach (maxAttempts : Nat) : OtpRec → Prop
  | issue (code : String) (now ttl : Nat) : OtpReach maxAttempts (otpIssue code now ttl)
  | step (r : OtpRec) (now : Nat) (code : String) :
      OtpReach maxAttempts r → OtpReach maxAttempts (otpVerify maxAttempts now code r).2

theorem otpReach_attempt_le (maxAttempts : Nat) (r : OtpRec)
    (h : OtpReach maxAttempts r) : r.attempt_count ≤ maxAttempts := by
  induction h with
  | issue code now ttl => simp [otpIssue]
  | step r now code _ ih =>
      rw [otpVerify]
      split_ifs <;> simp_all <;> omega

/-- Modelled from the spec: the current OTP issuance and its creation time
(section 4.2). -/
structure OtpCurrent where
  issued : OtpRec
  created_at : Nat
deriving DecidableEq

/-- Outcome of a resend call: the superseding issuance, or a rate-limit
rejection carrying the seconds until eligibility. -/
inductive ResendResult where
  | resent (st : OtpCurrent)
  | rateLimited (retry_after : Nat)
deriving DecidableEq

/-- Modelled from the spec: `Resend` (section 4.2): before the minimum
interval has elapsed it fails with `RateLimitError` reporting
seconds-until-eligible; afterwards it issues a fresh code that supersedes the
prior record. -/
def otpResend (minInterval now : Nat) (newCode : String) (ttl : Nat)
    (st : OtpCurrent) : ResendResult :=
  if now < st.created_at + minInterval then
    .rateLimited (st.created_at + minInterval - now)
  else .resent ⟨otpIssue newCode now ttl, now⟩

/-! ### The debouncing broadcast coordinator (spec section 4.4) -/

/-- Modelled from the spec: the debounce loop of the Broadcast Coordinator
(section 4.4); the Go server implementing it is not part of this repository.
The state carries the pending deadline and the latest cache snapshot; a
trigger within the window is absorbed and refreshes the snapshot, a trigger
past the deadline first fires the pending cycle, and a pending cycle fires at
the end of input. The result lists the snapshot each fired
rebuild-and-broadcast cycle reads. -/
def debounceRun {α : Type} (w : Nat) : Option (Nat × α) → List (Nat × α) → List α
  | none, [] => []
  | some p, [] => [p.2]
  | none, (t, s) :: evs => debounceRun w (some (t + w, s)) evs
  | some p, (t, s) :: evs =>
      if t < p.1 then debounceRun w (some (p.1, s)) evs
      else p.2 :: debounceRun w (some (t + w, s)) evs

/-- The rebuild-and-broadcast payloads produced for a sequence of triggers:
one `rebuild` per fired cycle. -/
def debounceBroadcasts {α β : Type} (w : Nat) (rebuild : α → β)
    (evs : List (Nat × α)) : List β :=
  (debounceRun w none evs).map rebuild

theorem debounceRun_absorb {α : Type} (w : Nat) (rest : List (Nat × α)) :
    ∀ (d : Nat) (s0 : α), (∀ e ∈ rest, e.1 < d) →
    debounceRun w (some (d, s0)) rest = [rest.foldl (fun _ e => e.2) s0] := by
  induction rest with
  | nil => intro d s0 _; rfl
  | cons e rest ih =>
      intro d s0 hall
      obtain ⟨t, s⟩ := e
      rw [debounceRun]
      rw [if_pos (hall (t, s) (List.mem_cons_self _ _))]
      rw [ih d s (fun e he => hall e (List.mem_cons_of_mem _ he))]
      rw [List.foldl_cons]

theorem foldl_snd_getLast {α : Type} (rest : List (Nat × α)) :
    ∀ (t1 : Nat) (s1 : α),
    rest.foldl (fun _ e => e.2) s1 = (((t1, s1) :: rest).getLast (by simp)).2 := by
  induction rest with
  | nil => intro t1 s1; rfl
  | cons e rest ih =>
      intro t1 s1
      rw [List.foldl_cons, ih e.1 e.2]
      congr 1

/-! ### `pad_key` (test.py) -/

/-- UTF-8 bytes of one character (`str.encode("utf-8")`). -/
def utf8Bytes (c : Char) : List Nat :=
  let v := c.toNat
  if v < 128 then [v]
  else if v < 2048 then [192 + v / 64, 128 + v % 64]
  else if v < 65536 then [224 + v / 4096, 128 + v / 64 % 64, 128 + v % 64]
  else [240 + v / 262144, 128 + v / 4096 % 64, 128 + v / 64 % 64, 128 + v % 64]

/-- UTF-8 bytes of a string. -/
def strBytes : List Char → List Nat
  | [] => []
  | c :: cs => utf8Bytes c ++ strBytes cs

/-- `s.ljust(width, fill)`: pad with `fill` characters up to `width`
characters. -/
def ljust (cs : List Char) (width : Nat) (fill : Char) : List Char :=
  cs ++ List.replicate (width - cs.length) fill

/-- `pad_key(mobile)` (test.py): `mobile.ljust(32, chr(0)).encode("utf-8")`. -/
def pad_key (mobile : List Char) : List Nat :=
  strBytes (ljust mobile 32 (Char.ofNat 0))

theorem strBytes_ascii (cs : List Char) (h : ∀ c ∈ cs, c.toNat < 128) :
    strBytes cs = cs.map Char.toNat := by
  induction cs with
  | nil => rfl
  | cons c cs ih =>
      rw [strBytes, List.map_cons]
      rw [show utf8Bytes c = [c.toNat] from by
        rw [utf8Bytes]
        simp [h c (List.mem_cons_self _ _)]]
      rw [ih (fun x hx => h x (List.mem_cons_of_mem _ hx))]
      rfl

/-! ### The claims -/

theorem sampleAux_length (r : Nat → Nat) (k : Nat) : ∀ (i : Nat)
    (pool : List (String × String)),
    (sampleAux r k i pool).length = min k pool.length := by
  induction k with
  | zero => intro i pool; simp [sampleAux]
  | succ k ih =>
      intro i pool
      rw [sampleAux]
      split
      · rename_i hlen
        simp [hlen]
      · rename_i hlen
        have hidx : r i % pool.length < pool.length := Nat.mod_lt _ (by omega)
        rw [List.length_cons, ih (i + 1) (pool.eraseIdx (r i % pool.length))]
        rw [List.length_eraseIdx_of_lt hidx]
        omega

theorem dumpsJ_ne_empty (d : PyJson) : dumpsJ d ≠ "" := by
  obtain ⟨ch, t, hct, -⟩ := printJ_head 0 d
  rw [dumpsJ, hct]
  intro hcon
  exact List.cons_ne_nil ch t (congrArg String.data hcon)

theorem retrieve_store_roundtrip (data : PyJson) (c : Cache)
    (h : (gamelistLen data).isSome = true) :
    retrieve_contest_list_from_redis (store_contest_list_in_redis data c).2
      = some data := by
  have hne := dumpsJ_ne_empty data
  simp [store_contest_list_in_redis, retrieve_contest_list_from_redis, rget, setex,
    loadsJ_dumpsJ, hne, h]

/-- C1 counterexample: a payload in the spec's own envelope shape (topic key
`listcontest`, plus `updated_at` and `total`) is cached byte-identically, yet
`retrieve_contest_list_from_redis` returns `None` rather than the payload:
the `len(contest_data['gamelist'])` log access raises `KeyError` and the
`except` path answers `None`. `store_contest_list_in_redis` returns `False`
on the same payload even though the cache was written, for the same reason. -/
theorem claim_C1_counterexample :
    rget (store_contest_list_in_redis
        (PyJson.obj [("listcontest", PyJson.arr []),
          ("updated_at", PyJson.str "T"), ("total", PyJson.num 0 0)]) emptyCache).2
        "listcontest:current"
      = some (dumpsJ (PyJson.obj [("listcontest", PyJson.arr []),
          ("updated_at", PyJson.str "T"), ("total", PyJson.num 0 0)]))
    ∧ retrieve_contest_list_from_redis
        (store_contest_list_in_redis
          (PyJson.obj [("listcontest", PyJson.arr []),
            ("updated_at", PyJson.str "T"), ("total", PyJson.num 0 0)]) emptyCache).2
      = none
    ∧ (store_contest_list_in_redis
        (PyJson.obj [("listcontest", PyJson.arr []),
          ("updated_at", PyJson.str "T"), ("total", PyJson.num 0 0)]) emptyCache).1
      = false := by
  refine ⟨?_, ?_, rfl⟩
  · simp [store_contest_list_in_redis, rget, setex]
  · have hne := dumpsJ_ne_empty (PyJson.obj [("listcontest", PyJson.arr []),
      ("updated_at", PyJson.str "T"), ("total", PyJson.num 0 0)])
    have hgl : gamelistLen (PyJson.obj [("listcontest", PyJson.arr []),
        ("updated_at", PyJson.str "T"), ("total", PyJson.num 0 0)]) = none := rfl
    simp [store_contest_list_in_redis, retrieve_contest_list_from_redis, rget, setex,
      loadsJ_dumpsJ, hne, hgl]

/-- C1 (amended): for every payload carrying a sized `gamelist` entry — in
particular every snapshot the script builds — the write/read cycle through
`store_contest_list_in_redis` and `retrieve_contest_list_from_redis` on key
`listcontest:current` is a byte-identical round trip: the cached bytes are
exactly the serialised payload, and the retrieved value equals the payload
that was written. A payload without such an entry is cached all the same but
reads back as `None`, because the `len(contest_data['gamelist'])` log access
raises. -/
theorem claim_C1_snapshot_roundtrip (data : PyJson) (c : Cache)
    (h : (gamelistLen data).isSome = true) :
    rget (store_contest_list_in_redis data c).2 "listcontest:current"
        = some (dumpsJ data)
      ∧ retrieve_contest_list_from_redis (store_contest_list_in_redis data c).2
        = some data := by
  constructor
  · simp [store_contest_list_in_redis, rget, setex]
  · exact retrieve_store_roundtrip data c h

/-- C1 witness: a snapshot with an empty contest list round trips. -/
theorem claim_C1_witness :
    (gamelistLen (PyJson.obj [("gamelist", PyJson.arr [])])).isSome = true
    ∧ retrieve_contest_list_from_redis
        (store_contest_list_in_redis (PyJson.obj [("gamelist", PyJson.arr [])])
          emptyCache).2
      = some (PyJson.obj [("gamelist", PyJson.arr [])]) :=
  ⟨by decide,
    (claim_C1_snapshot_roundtrip (PyJson.obj [("gamelist", PyJson.arr [])])
      emptyCache (by decide)).2⟩

/-- C4 counterexample: the contest snapshot that the script stores under
`listcontest:current` reads back as written, yet carries neither an
`updated_at` timestamp nor a `total` count, so the claimed envelope is false
for this payload. -/
theorem claim_C4_counterexample :
    retrieve_contest_list_from_redis
        (store_contest_list_in_redis (generate_contest_list_data (fun _ => "T"))
          emptyCache).2
      = some (generate_contest_list_data (fun _ => "T"))
    ∧ lookupKey (generate_contest_list_data (fun _ => "T")) "updated_at" = none
    ∧ lookupKey (generate_contest_list_data (fun _ => "T")) "total" = none := by
  refine ⟨?_, ?_, ?_⟩
  · exact retrieve_store_roundtrip (generate_contest_list_data (fun _ => "T"))
      emptyCache rfl
  · rfl
  · rfl

/-- C4 (amended): the gamelist snapshot payload written by
`update_game_list_in_redis` holds the item list under the topic key
`gamelist`, the `updated_at` timestamp, and the item count under
`total_games` (not `total`); the contest snapshot of
`generate_contest_list_data` carries only the item list under `gamelist`. -/
theorem claim_C4_payload_envelope (gs : List Game) (now : String) (cd : Nat)
    (iso : Int → String) :
    lookupKey (gameListData gs now cd) "gamelist" = some (.arr (gs.map Game.toJson))
    ∧ lookupKey (gameListData gs now cd) "updated_at" = some (.str now)
    ∧ lookupKey (gameListData gs now cd) "total_games" = some (.num gs.length 0)
    ∧ generate_contest_list_data iso = PyJson.obj [("gamelist", PyJson.arr (contest_list iso))] := by
  refine ⟨?_, ?_, ?_, rfl⟩ <;> rfl

/-- C5: triggering the `gamelist` topic on an empty cache rebuilds the
snapshot, writes it under `gamelist:current` with a TTL of exactly 300
seconds, and the broadcast payload decodes to the rebuilt snapshot, whose
`gamelist` entry is exactly the games in the store at rebuild time. -/
theorem claim_C5_trigger_rebuild (store : List Game) (now : String) (c : Cache)
    (hmiss : rget c "gamelist:current" = none) :
    rttl (onTriggerGamelist store now c).2 "gamelist:current" = some 300
    ∧ loadsJ (onTriggerGamelist store now c).1 = some (gameListData store now 300)
    ∧ lookupKey (gameListData store now 300) "gamelist"
        = some (.arr (store.map Game.toJson)) := by
  refine ⟨?_, ?_, rfl⟩
  · rw [onTriggerGamelist, hmiss]
    simp [rttl, setex]
  · rw [onTriggerGamelist, hmiss]
    simp [loadsJ_dumpsJ]

/-- C5 witness: a concrete two-game store and an empty cache. -/
theorem claim_C5_witness :
    rttl (onTriggerGamelist
        [⟨"g1", "Test Poker", "card", 1000, 900, 2, 4, "active", "T"⟩,
         ⟨"g2", "Test Rummy", "card", 1000, 600, 2, 4, "active", "T"⟩] "T" emptyCache).2
      "gamelist:current" = some 300
    ∧ loadsJ (onTriggerGamelist
        [⟨"g1", "Test Poker", "card", 1000, 900, 2, 4, "active", "T"⟩,
         ⟨"g2", "Test Rummy", "card", 1000, 600, 2, 4, "active", "T"⟩] "T" emptyCache).1
      = some (gameListData
        [⟨"g1", "Test Poker", "card", 1000, 900, 2, 4, "active", "T"⟩,
         ⟨"g2", "Test Rummy", "card", 1000, 600, 2, 4, "active", "T"⟩] "T" 300)
    ∧ lookupKey (gameListData
        [⟨"g1", "Test Poker", "card", 1000, 900, 2, 4, "active", "T"⟩,
         ⟨"g2", "Test Rummy", "card", 1000, 600, 2, 4, "active", "T"⟩] "T" 300) "gamelist"
      = some (.arr ([⟨"g1", "Test Poker", "card", 1000, 900, 2, 4, "active", "T"⟩,
         ⟨"g2", "Test Rummy", "card", 1000, 600, 2, 4, "active", "T"⟩].map Game.toJson)) :=
  claim_C5_trigger_rebuild _ "T" emptyCache rfl

/-- C8: for every non-negative `num_games`, `generate_game_list` returns
exactly `min(num_games, 10)` games, each with `min_players` between 2 and 4
and `max_players` between 4 and 8; and in the snapshot dict, `total_games`
equals the length of the game list while `active_games` is at most
`total_games`. -/
theorem claim_C8_generate_game_list (r : Nat → Nat) (num_games ts : Nat)
    (now : String) (cd : Nat) :
    (generate_game_list r (some num_games) ts now).length = min num_games 10
    ∧ (∀ g ∈ generate_game_list r (some num_games) ts now,
        2 ≤ g.min_players ∧ g.min_players ≤ 4 ∧ 4 ≤ g.max_players ∧ g.max_players ≤ 8)
    ∧ (∀ gs : List Game,
        lookupKey (gameListData gs now cd) "total_games" = some (.num gs.length 0)
        ∧ ∃ a : Nat, lookupKey (gameListData gs now cd) "active_games" = some (.num a 0)
            ∧ a ≤ gs.length) := by
  refine ⟨?_, ?_, ?_⟩
  · rw [generate_game_list]
    simp only [List.length_map, List.enum_length]
    rw [sample, sampleAux_length]
    simp [game_templates]
  · intro g hg
    rw [generate_game_list] at hg
    simp only [List.mem_map] at hg
    obtain ⟨p, _, hp⟩ := hg
    subst hp
    simp only [randint]
    have h3 : r (102 + 10 * p.1) % 3 < 3 := Nat.mod_lt _ (by omega)
    have h5 : r (103 + 10 * p.1) % 5 < 5 := Nat.mod_lt _ (by omega)
    refine ⟨by omega, by omega, by omega, by omega⟩
  · intro gs
    constructor
    · rfl
    · refine ⟨(gs.filter (fun g => g.status = "active")).length, ?_,
        List.length_filter_le _ _⟩
      rfl

/-- C8 witness: three games requested from a constant entropy stream. -/
theorem claim_C8_witness :
    (generate_game_list (fun _ => 0) (some 3) 0 "t").length = min 3 10
    ∧ (2 ≤ (⟨"game_1_0", "Poker", "card", 100, 50, 2, 4, "active", "t"⟩ : Game).min_players
        ∧ (⟨"game_1_0", "Poker", "card", 100, 50, 2, 4, "active", "t"⟩ : Game).min_players ≤ 4
        ∧ 4 ≤ (⟨"game_1_0", "Poker", "card", 100, 50, 2, 4, "active", "t"⟩ : Game).max_players
        ∧ (⟨"game_1_0", "Poker", "card", 100, 50, 2, 4, "active", "t"⟩ : Game).max_players ≤ 8)
    ∧ lookupKey (gameListData [] "t" 300) "total_games" = some (.num (0 : Int) 0) := by
  have h := claim_C8_generate_game_list (fun _ => 0) 3 0 "t" 300
  refine ⟨h.1, h.2.1 _ (by decide), ?_⟩
  have h2 := (h.2.2 []).1
  simpa using h2

/-- C9: when the cache update fails — in particular whenever the Redis client
is unavailable — `update_and_notify` returns `False`, leaves the client state
unchanged, and emits no trigger notification; the notification step runs only
after a successful cache write. -/
theorem claim_C9_no_notification_on_failure (rc : Option Cache) (ng : Option Nat)
    (cd : Nat) (r : Nat → Nat) (ts : Nat) (now : String) (sio : SioState) :
    (rc = none → update_game_list_in_redis rc (glArgOfNum ng) cd r ts now = none)
    ∧ (update_game_list_in_redis rc (glArgOfNum ng) cd r ts now = none →
        update_and_notify rc ng cd r ts now sio = (false, rc, sio)) := by
  constructor
  · intro h
    rw [h, update_game_list_in_redis]
  · intro h
    rw [update_and_notify, h]

/-- C9 witness: an unavailable Redis client with a requested game count. -/
theorem claim_C9_witness :
    update_game_list_in_redis none (glArgOfNum (some 5)) 300 (fun _ => 0) 0 "t" = none
    ∧ update_and_notify none (some 5) 300 (fun _ => 0) 0 "t" ⟨true, []⟩
        = (false, none, ⟨true, []⟩) := by
  have h := claim_C9_no_notification_on_failure none (some 5) 300 (fun _ => 0) 0 "t"
    ⟨true, []⟩
  exact ⟨h.1 rfl, h.2 (h.1 rfl)⟩

/-- C2: in every reachable session store, each `(mobile_no, device_id)` device
has at most one row with `is_active = true`; and a verified login supersedes:
after `verifyLogin`, any active row on the verified session's device carries
the new session token. -/
theorem claim_C2_single_active_session (rows : List SessionRow)
    (h : SessionReach rows) :
    (∀ m d, activeCount m d rows ≤ 1)
    ∧ (∀ tok jwt s, rows.find? (fun row => row.session_token == tok) = some s →
        ∀ row ∈ verifyLogin tok jwt rows,
          row.is_active = true → row.mobile_no = s.mobile_no →
          row.device_id = s.device_id → row.session_token = tok) := by
  constructor
  · exact (sessionReach_wf rows h).2
  · intro tok jwt s hs row hrow hact hm hd
    rw [verifyLogin, hs] at hrow
    simp only [List.mem_map] at hrow
    obtain ⟨row0, hrow0, hf⟩ := hrow
    by_cases htok : row0.session_token == tok
    · rw [if_pos htok] at hf
      rw [← hf]
      simpa using htok
    · rw [if_neg htok] at hf
      by_cases hsd : row0.mobile_no == s.mobile_no && row0.device_id == s.device_id
          && row0.is_active
      · rw [if_pos hsd] at hf
        rw [← hf] at hact
        simp at hact
      · rw [if_neg hsd] at hf
        subst hf
        simp only [Bool.and_eq_true, beq_iff_eq] at hsd
        exact absurd ⟨⟨hm, hd⟩, hact⟩ hsd

/-- C2 witness: one login and its verification on a concrete device. -/
theorem claim_C2_witness :
    activeCount "1234567890" "dev1"
      (verifyLogin "tok1" "jwt1" (startLogin "1234567890" "dev1" "tok1" "u1" [])) ≤ 1 :=
  (claim_C2_single_active_session _
    (SessionReach.verify _ "tok1" "jwt1"
      (SessionReach.login [] "1234567890" "dev1" "tok1" "u1" SessionReach.empty
        (by simp)))).1 "1234567890" "dev1"

/-- C3: on every reachable OTP record, `attempt_count` never exceeds the
configured maximum, and once the record is locked (the maximum reached and not
yet expired), a verify call with the correct code still returns `Locked`, not
success. -/
theorem claim_C3_lockout (maxAttempts : Nat) (r : OtpRec)
    (h : OtpReach maxAttempts r) :
    r.attempt_count ≤ maxAttempts
    ∧ ∀ now, ¬ r.expires_at < now → maxAttempts ≤ r.attempt_count →
        (otpVerify maxAttempts now r.otp_code r).1 = .locked := by
  refine ⟨otpReach_attempt_le maxAttempts r h, ?_⟩
  intro now h1 h2
  rw [otpVerify, if_neg h1, if_pos h2]

/-- C3 witness: five wrong attempts lock the record; the right code then still
fails with `Locked`. -/
theorem claim_C3_witness :
    (⟨"111111", 300, false, 5⟩ : OtpRec).attempt_count ≤ 5
    ∧ (otpVerify 5 0 "111111" ⟨"111111", 300, false, 5⟩).1 = .locked := by
  have hreach : OtpReach 5 ⟨"111111", 300, false, 5⟩ := by
    have h0 : OtpReach 5 (otpIssue "111111" 0 300) := OtpReach.issue "111111" 0 300
    have h1 := OtpReach.step _ 0 "0" h0
    have h2 := OtpReach.step _ 0 "0" h1
    have h3 := OtpReach.step _ 0 "0" h2
    have h4 := OtpReach.step _ 0 "0" h3
    have h5 := OtpReach.step _ 0 "0" h4
    exact h5
  have h := claim_C3_lockout 5 _ hreach
  exact ⟨h.1, h.2 0 (by decide) (by decide)⟩

/-- C7: a resend before the minimum interval has elapsed fails with the rate
limit error reporting the seconds until eligibility; a resend after the
interval succeeds and supersedes the prior code, which then no longer
verifies. -/
theorem claim_C7_resend (minInterval now now2 ttl maxAttempts : Nat)
    (newCode : String) (st : OtpCurrent) :
    (now < st.created_at + minInterval →
      otpResend minInterval now newCode ttl st
        = .rateLimited (st.created_at + minInterval - now))
    ∧ (st.created_at + minInterval ≤ now →
        otpResend minInterval now newCode ttl st
            = .resent ⟨otpIssue newCode now ttl, now⟩
          ∧ (st.issued.otp_code ≠ newCode →
              (otpVerify maxAttempts now2 st.issued.otp_code
                (otpIssue newCode now ttl)).1 ≠ .verified)) := by
  constructor
  · intro h
    rw [otpResend, if_pos h]
  · intro h
    constructor
    · rw [otpResend, if_neg (by omega)]
    · intro hne
      by_cases h1 : (otpIssue newCode now ttl).expires_at < now2
      · rw [otpVerify, if_pos h1]; simp
      · by_cases h2 : maxAttempts ≤ (otpIssue newCode now ttl).attempt_count
        · rw [otpVerify, if_neg h1, if_pos h2]; simp
        · have h3 : ¬ (st.issued.otp_code = (otpIssue newCode now ttl).otp_code) := hne
          rw [otpVerify, if_neg h1, if_neg h2, if_neg h3]; simp

/-- C7 witness: issuance at time 0 with a 30-second minimum interval; resend
at 10 is rate-limited with 20 seconds to wait, resend at 40 succeeds and the
old code no longer verifies. -/
theorem claim_C7_witness :
    otpResend 30 10 "222222" 300 ⟨otpIssue "111111" 0 300, 0⟩ = .rateLimited 20
    ∧ otpResend 30 40 "222222" 300 ⟨otpIssue "111111" 0 300, 0⟩
        = .resent ⟨otpIssue "222222" 40 300, 40⟩
    ∧ (otpVerify 5 40 "111111" (otpIssue "222222" 40 300)).1 ≠ .verified := by
  have ha := (claim_C7_resend 30 10 40 300 5 "222222" ⟨otpIssue "111111" 0 300, 0⟩).1
    (by decide)
  have hb := (claim_C7_resend 30 40 40 300 5 "222222" ⟨otpIssue "111111" 0 300, 0⟩).2
    (by decide)
  exact ⟨ha, hb.1, hb.2 (by decide)⟩

/-- C6: any burst of N ≥ 1 triggers for a topic arriving within one debounce
window of the first produces exactly one rebuild-and-broadcast cycle, and its
payload is the rebuild of the cache state as of the last trigger of the
burst. -/
theorem claim_C6_debounce_coalescing {α β : Type} (w : Nat) (rebuild : α → β)
    (t1 : Nat) (s1 : α) (rest : List (Nat × α))
    (h : ∀ e ∈ rest, e.1 < t1 + w) :
    debounceBroadcasts w rebuild ((t1, s1) :: rest)
      = [rebuild ((((t1, s1) :: rest).getLast (by simp)).2)] := by
  rw [debounceBroadcasts]
  rw [show debounceRun w none ((t1, s1) :: rest)
      = debounceRun w (some (t1 + w, s1)) rest from by rw [debounceRun]]
  rw [debounceRun_absorb w rest (t1 + w) s1 h]
  rw [foldl_snd_getLast rest t1 s1]
  rfl

/-- C6 witness: two triggers 100 ms apart inside a 500 ms window, the second
carrying a refreshed two-game cache state; one broadcast, rebuilt from the
second state. -/
theorem claim_C6_witness :
    debounceBroadcasts 500 (fun gs => dumpsJ (gameListData gs "T" 300))
        [(0, [⟨"g1", "Poker", "card", 10, 5, 2, 4, "active", "T"⟩]),
         (100, [⟨"g1", "Poker", "card", 10, 5, 2, 4, "active", "T"⟩,
                ⟨"g2", "Rummy", "card", 20, 9, 2, 4, "active", "T"⟩])]
      = [dumpsJ (gameListData
          [⟨"g1", "Poker", "card", 10, 5, 2, 4, "active", "T"⟩,
           ⟨"g2", "Rummy", "card", 20, 9, 2, 4, "active", "T"⟩] "T" 300)] :=
  claim_C6_debounce_coalescing 500 (fun gs => dumpsJ (gameListData gs "T" 300)) 0
    [⟨"g1", "Poker", "card", 10, 5, 2, 4, "active", "T"⟩]
    [(100, [⟨"g1", "Poker", "card", 10, 5, 2, 4, "active", "T"⟩,
            ⟨"g2", "Rummy", "card", 20, 9, 2, 4, "active", "T"⟩])]
    (by intro e he; simp only [List.mem_singleton] at he; rw [he]; decide)

/-- C10: for a mobile-number string — ASCII characters, as phone numbers are —
of at most 32 characters, `pad_key` returns exactly 32 bytes: the UTF-8 bytes
of the input followed by NUL padding, a valid AES-256 key length. -/
theorem claim_C10_pad_key (mobile : List Char)
    (hascii : ∀ c ∈ mobile, c.toNat < 128) (hlen : mobile.length ≤ 32) :
    (pad_key mobile).length = 32
    ∧ pad_key mobile = strBytes mobile ++ List.replicate (32 - mobile.length) 0 := by
  have hpad : ∀ k : Nat, strBytes (List.replicate k (Char.ofNat 0))
      = List.replicate k 0 := by
    intro k
    induction k with
    | zero => rfl
    | succ k ih =>
        rw [List.replicate_succ, strBytes, ih, List.replicate_succ]
        rfl
  have hsplit : pad_key mobile
      = strBytes mobile ++ List.replicate (32 - mobile.length) 0 := by
    rw [pad_key, ljust]
    have happ : ∀ (a b : List Char), strBytes (a ++ b) = strBytes a ++ strBytes b := by
      intro a b
      induction a with
      | nil => rfl
      | cons c a ih => rw [List.cons_append, strBytes, strBytes, ih, List.append_assoc]
    rw [happ, hpad]
  refine ⟨?_, hsplit⟩
  rw [hsplit, strBytes_ascii mobile hascii]
  simp only [List.length_append, List.length_map, List.length_replicate]
  omega

/-- C10 witness: the test script's mobile number. -/
theorem claim_C10_witness :
    (pad_key "5985899652".data).length = 32
    ∧ pad_key "5985899652".data
        = strBytes "5985899652".data ++ List.replicate (32 - "5985899652".data.length) 0 :=
  claim_C10_pad_key "5985899652".data (by decide) (by decide)
